import Mathlib

set_option maxRecDepth 200000

/-!
Verification of the consolidated order-book cache and trade-decision engine
(`cpp_runner`): the price-impact calculator, the venue table, the two caches
and the signal handler, embedded shallowly over exact rationals.  `double`
arithmetic is modelled by `ℚ` (the algorithms involved perform only field
operations and comparisons), machine enums by `ℕ` indices, and clock readings
by an explicit `now : ℤ` argument supplied to each operation that reads the
clock in the source.
-/

namespace Sovereign

/-- A single order-book level: `(price, volume)`, from `order_book_types.hpp`. -/
structure PriceLevel where
  price : ℚ := 0
  volume : ℚ := 0
deriving DecidableEq, Repr, Inhabited

/-- Result of walking one side of a book, from `order_book_types.hpp`
(`struct PriceImpact`); all fields zero-initialised as in `PriceImpact{}`. -/
structure PriceImpact where
  start_price : ℚ := 0
  end_price : ℚ := 0
  vwap : ℚ := 0
  price_drop_pct : ℚ := 0
  volume_filled : ℚ := 0
  volume_remaining : ℚ := 0
  total_cost : ℚ := 0
  levels_eaten : ℕ := 0
deriving DecidableEq, Repr

/-- The loop body shared by `calculate_sell_impact` and `calculate_buy_impact`
in `impact_calculator.hpp`: walk the levels in order while `remaining > 0`,
threading `(remaining, impact)` exactly as the C++ loop mutates its locals. -/
def walkLoop : List PriceLevel → ℚ × PriceImpact → ℚ × PriceImpact
  | [], s => s
  | l :: ls, (remaining, imp) =>
      if remaining ≤ 0 then (remaining, imp)
      else
        let fill := min remaining l.volume
        walkLoop ls (remaining - fill,
          { imp with
            total_cost := imp.total_cost + l.price * fill
            volume_filled := imp.volume_filled + fill
            end_price := l.price
            levels_eaten := imp.levels_eaten + 1 })

/-- Source `ImpactCalculator::calculate_sell_impact` (impact_calculator.hpp:44-86):
sell `sell_btc` into `bids` (sorted by price descending). -/
def calculate_sell_impact (sell_btc : ℚ) (bids : List PriceLevel) : PriceImpact :=
  if bids = [] ∨ sell_btc ≤ 0 then { volume_remaining := sell_btc }
  else
    let start := bids.headI.price
    let s := walkLoop bids (sell_btc, { start_price := start, end_price := start })
    let imp : PriceImpact := { s.2 with volume_remaining := s.1 }
    let imp : PriceImpact := { imp with
      vwap := if 0 < imp.volume_filled then imp.total_cost / imp.volume_filled
              else imp.start_price }
    if 0 < imp.start_price then
      { imp with price_drop_pct := (imp.start_price - imp.end_price) / imp.start_price * 100 }
    else imp

/-- Source `ImpactCalculator::calculate_buy_impact` (impact_calculator.hpp:102-144):
buy `buy_btc` from `asks` (sorted by price ascending); the percentage is
stored negated. -/
def calculate_buy_impact (buy_btc : ℚ) (asks : List PriceLevel) : PriceImpact :=
  if asks = [] ∨ buy_btc ≤ 0 then { volume_remaining := buy_btc }
  else
    let start := asks.headI.price
    let s := walkLoop asks (buy_btc, { start_price := start, end_price := start })
    let imp : PriceImpact := { s.2 with volume_remaining := s.1 }
    let imp : PriceImpact := { imp with
      vwap := if 0 < imp.volume_filled then imp.total_cost / imp.volume_filled
              else imp.start_price }
    if 0 < imp.start_price then
      { imp with price_drop_pct := -((imp.end_price - imp.start_price) / imp.start_price * 100) }
    else imp

/-- The `(price, take)` pairs of the levels touched by the spec's walk
(§4.2 of the spec): consume levels in order while `remaining > 0` with
`take = min(remaining, level.volume)`. -/
def takes : ℚ → List PriceLevel → List (ℚ × ℚ)
  | _, [] => []
  | r, l :: ls =>
      if r ≤ 0 then []
      else (l.price, min r l.volume) :: takes (r - min r l.volume) ls

/-- Last element of a list, with a default; recursion chosen to match how the
walk's `end` variable is overwritten level by level. -/
def lastD : List ℚ → ℚ → ℚ
  | [], d => d
  | x :: xs, _ => lastD xs x

/-- Sum of the takes (the spec's `filled`). -/
def takesSum (ts : List (ℚ × ℚ)) : ℚ := (ts.map Prod.snd).sum

/-- Sum of `price · take` over the takes (the spec's `cost`). -/
def takesCost (ts : List (ℚ × ℚ)) : ℚ := (ts.map fun p => p.1 * p.2).sum

/-- The spec's sell-walk reference definition, written from the spec's words
(spec §4.2): `total_cost` is the sum of `price·take`, `volume_filled` the sum
of takes, `volume_filled + volume_remaining = qty`, `end_price` the price of
the last level touched (`start_price` when none), `vwap = cost/filled` when
`filled > 0` and `start_price` otherwise, and
`price_drop_pct = (start − end)/start · 100` unconditionally; when `bids` is
empty or `qty ≤ 0` the result has `volume_remaining = qty` and every other
field zero. -/
def sellWalkSpec (qty : ℚ) (bids : List PriceLevel) : PriceImpact :=
  if bids = [] ∨ qty ≤ 0 then { volume_remaining := qty }
  else
    let start := bids.headI.price
    let ts := takes qty bids
    let filled := takesSum ts
    let cost := takesCost ts
    let endp := lastD (ts.map Prod.fst) start
    { start_price := start
      end_price := endp
      vwap := if 0 < filled then cost / filled else start
      price_drop_pct := (start - endp) / start * 100
      volume_filled := filled
      volume_remaining := qty - filled
      total_cost := cost
      levels_eaten := ts.length }

/-- The spec's buy-walk reference definition (spec §4.2): the symmetric walk
over asks with `price_drop_pct ← −((end − start)/start · 100)`. -/
def buyWalkSpec (qty : ℚ) (asks : List PriceLevel) : PriceImpact :=
  if asks = [] ∨ qty ≤ 0 then { volume_remaining := qty }
  else
    let start := asks.headI.price
    let ts := takes qty asks
    let filled := takesSum ts
    let cost := takesCost ts
    let endp := lastD (ts.map Prod.fst) start
    { start_price := start
      end_price := endp
      vwap := if 0 < filled then cost / filled else start
      price_drop_pct := -((endp - start) / start * 100)
      volume_filled := filled
      volume_remaining := qty - filled
      total_cost := cost
      levels_eaten := ts.length }

/-- Sorted-descending hypothesis on a bid list. -/
def SortedDesc (levels : List PriceLevel) : Prop :=
  levels.Pairwise (fun a b => b.price ≤ a.price)

/-- Sorted-ascending hypothesis on an ask list. -/
def SortedAsc (levels : List PriceLevel) : Prop :=
  levels.Pairwise (fun a b => a.price ≤ b.price)

/-- Source `ImpactCalculator::calculate_exit_price` (impact_calculator.hpp:162-179). -/
def calculate_exit_price (entry_price : ℚ) (impact : PriceImpact)
    (is_short : Bool) (take_profit : ℚ) : ℚ :=
  if is_short then
    entry_price * (1 - |impact.price_drop_pct| * take_profit / 100)
  else
    entry_price * (1 + |impact.price_drop_pct| * take_profit / 100)

/-- The free helper `ImpactCalculator::is_profitable`
(impact_calculator.hpp:313-319): `|impact_pct| >= fees_pct * safety_multiple`. -/
def ImpactCalculator.is_profitable (impact_pct fees_pct safety_multiple : ℚ) : Bool :=
  decide (fees_pct * safety_multiple ≤ |impact_pct|)

/-- The member `PriceImpact::is_profitable` (order_book_types.hpp:852-854):
`|price_drop_pct| > fees_pct * safety_multiple` (strict). -/
def PriceImpact.is_profitable (imp : PriceImpact) (fees_pct safety_multiple : ℚ) : Bool :=
  decide (fees_pct * safety_multiple < |imp.price_drop_pct|)

/-- The 110-entry canonical name table `EXCHANGE_NAMES`
(order_book_types.hpp:148-174), in enum order. -/
def EXCHANGE_NAMES : List String :=
  ["apex", "arkham", "ascendex", "backpack", "bigone",
   "binance", "binancecoinm", "binanceusdm", "bingx", "bitfinex",
   "bitflyer", "bitget", "bitmart", "bitmex", "bitrue",
   "blofin", "bullish", "bybit", "coinbase", "coinbaseadvanced",
   "coinbaseinternational", "coincatch", "coinex", "cryptocom", "deepcoin",
   "defx", "delta", "deribit", "derive", "digifinex",
   "dydx", "fmfwio", "gate", "gateio", "gemini",
   "hashkey", "hibachi", "hitbtc", "htx", "huobi",
   "hyperliquid", "krakenfutures", "kucoinfutures", "lbank", "mexc",
   "modetrade", "myokx", "okx", "okxus", "onetrading",
   "paradex", "phemex", "poloniex", "toobit", "whitebit",
   "woofipro", "xt", "zebpay",
   "alpaca", "bequant", "binanceus", "bit2c", "bitbank",
   "bitbns", "bithumb", "bitopro", "bitso", "bitstamp",
   "bitteam", "bittrade", "bitvavo", "blockchaincom", "btcalpha",
   "btcbox", "btcmarkets", "btcturk", "cex", "coinbaseexchange",
   "coincheck", "coinmate", "coinmetro", "coinone", "coinsph",
   "coinspot", "cryptomus", "exmo", "foxbit", "hollaex",
   "independentreserve", "indodax", "kraken", "kucoin", "latoken",
   "luno", "mercado", "ndax", "novadax", "oceanex",
   "oxfun", "p2b", "paymium", "probit", "timex",
   "tokocrypto", "upbit", "wavesexchange", "woo", "yobit",
   "zaif", "zonda"]

/-- The `Exchange::COUNT` sentinel: exchanges are modelled as `ℕ` indices
`0..109` in enum order, `110` being the sentinel. -/
def exchangeCOUNT : ℕ := 110

/-- Linear scan of `exchange_from_name` (order_book_types.hpp:183-190):
index `i` counts up as the loop walks the table. -/
def exFromNameGo (name : String) : List String → ℕ → ℕ
  | [], i => i
  | s :: rest, i => if s = name then i else exFromNameGo name rest (i + 1)

/-- Source `exchange_from_name` (order_book_types.hpp:183-190): first index whose
table entry equals `name` exactly, `COUNT` when none matches. -/
def exchange_from_name (name : String) : ℕ :=
  exFromNameGo name EXCHANGE_NAMES 0

/-- Source `exchange_name` (order_book_types.hpp:176-181). -/
def exchange_name (ex : ℕ) : String :=
  if exchangeCOUNT ≤ ex then "unknown" else EXCHANGE_NAMES.getD ex ""

/-- The `fee_pct` column of `get_exchange_config`
(order_book_types.hpp:264-603), in enum order (fractions: `0.001 = 1/1000`). -/
def FEE_PCTS : List ℚ :=
  [2/1000, 3/1000, 2/1000, 2/1000, 2/1000,
   1/1000, 1/1000, 1/1000, 2/1000, 2/1000,
   2/1000, 2/1000, 2/1000, 1/1000, 2/1000,
   2/1000, 2/1000, 1/1000, 5/1000, 5/1000,
   2/1000, 2/1000, 2/1000, 2/1000, 2/1000,
   2/1000, 2/1000, 1/1000, 2/1000, 2/1000,
   1/1000, 2/1000, 2/1000, 2/1000, 4/1000,
   2/1000, 2/1000, 2/1000, 2/1000, 2/1000,
   1/1000, 2/1000, 2/1000, 2/1000, 2/1000,
   2/1000, 1/1000, 1/1000, 1/1000, 2/1000,
   2/1000, 2/1000, 3/1000, 2/1000, 2/1000,
   2/1000, 2/1000, 5/1000,
   2/1000, 2/1000, 1/1000, 5/1000, 2/1000,
   5/1000, 2/1000, 2/1000, 5/1000, 5/1000,
   2/1000, 2/1000, 2/1000, 2/1000, 2/1000,
   2/1000, 2/1000, 2/1000, 2/1000, 5/1000,
   2/1000, 2/1000, 2/1000, 2/1000, 2/1000,
   5/1000, 2/1000, 2/1000, 2/1000, 2/1000,
   5/1000, 3/1000, 2/1000, 2/1000, 2/1000,
   2/1000, 3/1000, 2/1000, 2/1000, 2/1000,
   2/1000, 2/1000, 5/1000, 2/1000, 2/1000,
   2/1000, 2/1000, 2/1000, 2/1000, 2/1000,
   2/1000, 2/1000]

/-- Source `get_exchange_config(ex).fee_pct`: the per-venue taker fee as a fraction;
the switch's `default` branch returns `0.005`. -/
def fee_pct (ex : ℕ) : ℚ :=
  if ex < exchangeCOUNT then FEE_PCTS.getD ex (5/1000) else 5/1000

/-- The seven instrument types (order_book_types.hpp:201-210). -/
inductive InstrumentType
  | SPOT | MARGIN | PERPETUAL | FUTURES | OPTIONS | INVERSE | LEVERAGED_TOKEN
deriving DecidableEq, Repr

/-- Index of an instrument type inside the enum (its `uint8_t` value). -/
def InstrumentType.idx : InstrumentType → ℕ
  | .SPOT => 0
  | .MARGIN => 1
  | .PERPETUAL => 2
  | .FUTURES => 3
  | .OPTIONS => 4
  | .INVERSE => 5
  | .LEVERAGED_TOKEN => 6

/-- Source `struct OrderBook` (order_book_types.hpp:630-712).  The monotonic
`steady_clock` reading is modelled as an integer millisecond count. -/
structure OrderBook where
  bids : List PriceLevel := []
  asks : List PriceLevel := []
  timestamp : ℤ := 0
  sequence : ℕ := 0
deriving DecidableEq, Repr

/-- Source `OrderBook::is_valid`: both sides non-empty. -/
def OrderBook.is_valid (b : OrderBook) : Bool :=
  !b.bids.isEmpty && !b.asks.isEmpty

/-- Source `OrderBook::best_bid`. -/
def OrderBook.best_bid (b : OrderBook) : ℚ :=
  match b.bids with
  | [] => 0
  | l :: _ => l.price

/-- Source `OrderBook::best_ask`. -/
def OrderBook.best_ask (b : OrderBook) : ℚ :=
  match b.asks with
  | [] => 0
  | l :: _ => l.price

/-- Source `OrderBook::mid_price`. -/
def OrderBook.mid_price (b : OrderBook) : ℚ :=
  let bid := b.best_bid
  let ask := b.best_ask
  if bid ≤ 0 ∨ ask ≤ 0 then 0 else (bid + ask) / 2

/-- Source `struct InstrumentData` (order_book_types.hpp:718-787), with the source's
field initialisers: note `is_call = true`, `max_leverage = 1.0`,
`contract_size = 1.0` and `target_leverage = 3.0` are *not* zero. -/
structure InstrumentData where
  type : InstrumentType := .SPOT
  book : OrderBook := {}
  last_price : ℚ := 0
  volume_24h : ℚ := 0
  timestamp : ℤ := 0
  sequence : ℕ := 0
  mark_price : ℚ := 0
  index_price : ℚ := 0
  funding_rate : ℚ := 0
  next_funding_ts : ℤ := 0
  predicted_funding : ℚ := 0
  expiration_ts : ℤ := 0
  basis : ℚ := 0
  basis_rate : ℚ := 0
  strike : ℚ := 0
  implied_vol : ℚ := 0
  is_call : Bool := true
  delta : ℚ := 0
  gamma : ℚ := 0
  theta : ℚ := 0
  vega : ℚ := 0
  rho : ℚ := 0
  underlying_price : ℚ := 0
  time_to_expiry : ℚ := 0
  interest_rate_long : ℚ := 0
  interest_rate_short : ℚ := 0
  max_leverage : ℚ := 1
  maintenance_margin : ℚ := 0
  contract_size : ℚ := 1
  contract_value : ℚ := 0
  nav : ℚ := 0
  real_leverage : ℚ := 0
  target_leverage : ℚ := 3
  rebalance_ts : ℤ := 0
  basket : ℚ := 0

/-- State of `OrderBookCache` (order_book_cache.hpp:35-334): one book and one
atomic sequence counter per exchange index.  Locking serialises operations, so
the sequential state machine below is the cache's observable contract. -/
structure OrderBookCache where
  books : ℕ → OrderBook
  seqs : ℕ → ℕ

namespace OrderBookCache

/-- The fresh cache: default-constructed books, all counters zero. -/
def init : OrderBookCache := { books := fun _ => {}, seqs := fun _ => 0 }

/-- Source `OrderBookCache::get` (order_book_cache.hpp:55-62). -/
def get (st : OrderBookCache) (ex : ℕ) : OrderBook :=
  if exchangeCOUNT ≤ ex then {} else st.books ex

/-- Source `OrderBookCache::is_stale` (order_book_cache.hpp:88-95):
`age_ms() > max_age_ms`, out-of-range keys count as stale. -/
def is_stale (st : OrderBookCache) (ex : ℕ) (now : ℤ) (max_age_ms : ℤ) : Bool :=
  if exchangeCOUNT ≤ ex then true
  else decide (max_age_ms < now - (st.books ex).timestamp)

/-- Source `OrderBookCache::is_valid` (order_book_cache.hpp:100-107). -/
def is_valid (st : OrderBookCache) (ex : ℕ) : Bool :=
  if exchangeCOUNT ≤ ex then false else (st.books ex).is_valid

/-- Source `OrderBookCache::get_sequence` (order_book_cache.hpp:113-119). -/
def get_sequence (st : OrderBookCache) (ex : ℕ) : ℕ :=
  if exchangeCOUNT ≤ ex then 0 else st.seqs ex

/-- Source `OrderBookCache::update` (order_book_cache.hpp:178-199): invalid venues
are silently discarded; otherwise timestamp := now, per-key counter and stored
sequence := previous + 1. -/
def update (st : OrderBookCache) (ex : ℕ) (book : OrderBook) (now : ℤ) :
    OrderBookCache :=
  if exchangeCOUNT ≤ ex then st
  else
    let newSeq := st.seqs ex + 1
    { books := fun i => if i = ex then
        { book with timestamp := now, sequence := newSeq } else st.books i
      seqs := fun i => if i = ex then newSeq else st.seqs i }

/-- Source `OrderBookCache::update_bids` (order_book_cache.hpp:204-214). -/
def update_bids (st : OrderBookCache) (ex : ℕ) (bids : List PriceLevel)
    (now : ℤ) : OrderBookCache :=
  if exchangeCOUNT ≤ ex then st
  else
    let newSeq := st.seqs ex + 1
    { books := fun i => if i = ex then
        { st.books ex with bids := bids, timestamp := now, sequence := newSeq }
        else st.books i
      seqs := fun i => if i = ex then newSeq else st.seqs i }

/-- Source `OrderBookCache::update_asks` (order_book_cache.hpp:219-229). -/
def update_asks (st : OrderBookCache) (ex : ℕ) (asks : List PriceLevel)
    (now : ℤ) : OrderBookCache :=
  if exchangeCOUNT ≤ ex then st
  else
    let newSeq := st.seqs ex + 1
    { books := fun i => if i = ex then
        { st.books ex with asks := asks, timestamp := now, sequence := newSeq }
        else st.books i
      seqs := fun i => if i = ex then newSeq else st.seqs i }

/-- Source `OrderBookCache::clear` (order_book_cache.hpp:234-243): `OrderBook::clear`
resets both sides and the timestamp to the epoch, then the write still bumps
the sequence. -/
def clear (st : OrderBookCache) (ex : ℕ) : OrderBookCache :=
  if exchangeCOUNT ≤ ex then st
  else
    let newSeq := st.seqs ex + 1
    { books := fun i => if i = ex then
        { bids := [], asks := [], timestamp := 0, sequence := newSeq }
        else st.books i
      seqs := fun i => if i = ex then newSeq else st.seqs i }

/-- Source `OrderBookCache::clear_all` (order_book_cache.hpp:248-254). -/
def clear_all (st : OrderBookCache) : OrderBookCache :=
  { books := fun i => if i < exchangeCOUNT then
      { bids := [], asks := [], timestamp := 0, sequence := st.seqs i + 1 }
      else st.books i
    seqs := fun i => if i < exchangeCOUNT then st.seqs i + 1 else st.seqs i }

/-- The cache's write operations, for stating sequence monotonicity across
every operation. -/
inductive Op
  | update (ex : ℕ) (book : OrderBook) (now : ℤ)
  | update_bids (ex : ℕ) (bids : List PriceLevel) (now : ℤ)
  | update_asks (ex : ℕ) (asks : List PriceLevel) (now : ℤ)
  | clear (ex : ℕ)
  | clear_all

/-- Apply one write operation. -/
def apply (st : OrderBookCache) : Op → OrderBookCache
  | .update ex book now => st.update ex book now
  | .update_bids ex bids now => st.update_bids ex bids now
  | .update_asks ex asks now => st.update_asks ex asks now
  | .clear ex => st.clear ex
  | .clear_all => st.clear_all

end OrderBookCache

/-- State of `InstrumentCache` (order_book_cache.hpp:345-768): a flat map keyed
by `exchange_idx * 7 + inst_idx` plus one *global* sequence counter. -/
structure InstrumentCache where
  cache : ℕ → Option InstrumentData
  global_seq : ℕ

namespace InstrumentCache

/-- The fresh cache. -/
def init : InstrumentCache := { cache := fun _ => none, global_seq := 0 }

/-- Source `InstrumentCache::make_key` (order_book_cache.hpp:364-367). -/
def make_key (ex : ℕ) (t : InstrumentType) : ℕ := ex * 7 + t.idx

/-- Source `InstrumentCache::get` (order_book_cache.hpp:385-393): missing keys give a
default-constructed `InstrumentData`. -/
def get (st : InstrumentCache) (ex : ℕ) (t : InstrumentType) : InstrumentData :=
  (st.cache (make_key ex t)).getD {}

/-- Source `InstrumentCache::get_sequence` (order_book_cache.hpp:516-524). -/
def get_sequence (st : InstrumentCache) (ex : ℕ) (t : InstrumentType) : ℕ :=
  match st.cache (make_key ex t) with
  | some d => d.sequence
  | none => 0

/-- Source `InstrumentCache::update` (order_book_cache.hpp:534-553): overwrites
`type`, stamps `timestamp`, assigns `sequence := ++global_sequence_` and
replaces the stored value.  There is no venue validation. -/
def update (st : InstrumentCache) (ex : ℕ) (t : InstrumentType)
    (data : InstrumentData) (now : ℤ) : InstrumentCache :=
  let data' := { data with
    type := t
    timestamp := now
    sequence := st.global_seq + 1 }
  { cache := fun k => if k = make_key ex t then some data' else st.cache k
    global_seq := st.global_seq + 1 }

/-- Source `InstrumentCache::update_book` (order_book_cache.hpp:558-569):
`cache_[key]` default-constructs a fresh entry when the key is absent. -/
def update_book (st : InstrumentCache) (ex : ℕ) (t : InstrumentType)
    (book : OrderBook) (now : ℤ) : InstrumentCache :=
  let d0 := (st.cache (make_key ex t)).getD {}
  let book' : OrderBook := { book with timestamp := now }
  let d' := { d0 with
    type := t
    book := book'
    timestamp := now
    last_price := book'.mid_price
    sequence := st.global_seq + 1 }
  { cache := fun k => if k = make_key ex t then some d' else st.cache k
    global_seq := st.global_seq + 1 }

/-- Source `InstrumentCache::update_funding` (order_book_cache.hpp:574-585). -/
def update_funding (st : InstrumentCache) (ex : ℕ) (t : InstrumentType)
    (funding_rate : ℚ) (next_funding_ts : ℤ) (now : ℤ) : InstrumentCache :=
  let d0 := (st.cache (make_key ex t)).getD {}
  let d' := { d0 with
    type := t
    funding_rate := funding_rate
    next_funding_ts := next_funding_ts
    timestamp := now
    sequence := st.global_seq + 1 }
  { cache := fun k => if k = make_key ex t then some d' else st.cache k
    global_seq := st.global_seq + 1 }

/-- Source `InstrumentCache::clear` (order_book_cache.hpp:647-651): erases the entry;
the global counter is untouched. -/
def clear (st : InstrumentCache) (ex : ℕ) (t : InstrumentType) :
    InstrumentCache :=
  { st with cache := fun k => if k = make_key ex t then none else st.cache k }

/-- Every stored entry's sequence is at most the global counter.  This holds
in the empty cache and is preserved by every operation, so it holds in every
reachable state; under it each write strictly increases the written key's
sequence accessor. -/
def SeqInv (st : InstrumentCache) : Prop :=
  ∀ (k : ℕ) (d : InstrumentData), st.cache k = some d → d.sequence ≤ st.global_seq

end InstrumentCache

/-- Source `struct TradingConfig` (order_book_types.hpp:914-925) with its defaults.
The source's `take_profit_ratio` field is named `take_profit` here. -/
structure TradingConfig where
  min_deposit_btc : ℚ := 5
  min_impact_multiple : ℚ := 2
  fees_pct : ℚ := 1/10
  take_profit : ℚ := 8/10
  max_book_age_ms : ℤ := 5000
deriving DecidableEq, Repr

/-- Source `TradingConfig::min_impact_pct` (order_book_types.hpp:922-924). -/
def TradingConfig.min_impact_pct (cfg : TradingConfig) : ℚ :=
  cfg.fees_pct * cfg.min_impact_multiple

/-- Source `struct BlockchainSignal` (order_book_types.hpp:872-882); only the fields
the handler reads. -/
structure BlockchainSignal where
  exchange : String
  is_inflow : Bool := false
  btc_amount : ℚ := 0
deriving DecidableEq, Repr

/-- Which branch of the handler produced the decision.  The source stores a
human-readable string; the claims are about which reject branch fired, so the
strings are abstracted to tags. -/
inductive Reason
  | UnknownExchange
  | DepositTooSmall
  | BookStale
  | BookNotAvailable
  | ImpactBelowThreshold
  | InsufficientDepth
  | Approved
deriving DecidableEq, Repr

/-- Source `struct TradeDecision` (order_book_types.hpp:888-908); `processing_ns`
(a wall-clock measurement) is not modelled. -/
structure TradeDecision where
  should_trade : Bool := false
  is_short : Bool := false
  exchange : ℕ := exchangeCOUNT
  entry_price : ℚ := 0
  exit_price : ℚ := 0
  impact : PriceImpact := {}
  reason : Reason := .Approved
deriving DecidableEq, Repr

/-- The per-venue fee percentage as both handlers derive it
(signal_handler.hpp:86-87 and 275-276): `get_exchange_config(ex).fee_pct * 100`,
replaced by the process-wide default when below `0.01`. -/
def venueFeesPct (ex : ℕ) (cfg : TradingConfig) : ℚ :=
  let f := fee_pct ex * 100
  if f < 1/100 then cfg.fees_pct else f

/-- The raw impact both handlers compute from the book and the signal
direction (signal_handler.hpp:89-99 and 279-287). -/
def signalImpact (signal : BlockchainSignal) (book : OrderBook) : PriceImpact :=
  if signal.is_inflow then calculate_sell_impact signal.btc_amount book.bids
  else calculate_buy_impact signal.btc_amount book.asks

/-- The entry price both handlers record (best bid for inflow/short, best ask
for outflow/long). -/
def signalEntry (signal : BlockchainSignal) (book : OrderBook) : ℚ :=
  if signal.is_inflow then book.best_bid else book.best_ask

/-- Source `SignalHandler::process_signal` (signal_handler.hpp:43-146).  Check order
as in the source: unknown exchange, minimum size, staleness, validity, then
the impact-threshold test (against `config_.min_impact_pct()`; the per-venue
fee is computed at signal_handler.hpp:86-87 but not used by this test), and
only then the depth test. -/
def process_signal (cache : OrderBookCache) (cfg : TradingConfig) (now : ℤ)
    (signal : BlockchainSignal) : TradeDecision :=
  let d0 : TradeDecision := { is_short := signal.is_inflow }
  let ex := exchange_from_name signal.exchange
  if ex = exchangeCOUNT then { d0 with reason := .UnknownExchange }
  else
    let d1 := { d0 with exchange := ex }
    if signal.btc_amount < cfg.min_deposit_btc then
      { d1 with reason := .DepositTooSmall }
    else if cache.is_stale ex now cfg.max_book_age_ms then
      { d1 with reason := .BookStale }
    else if !cache.is_valid ex then
      { d1 with reason := .BookNotAvailable }
    else
      let book := cache.get ex
      let _fees_pct := venueFeesPct ex cfg
      let impact := signalImpact signal book
      let entry := signalEntry signal book
      let d2 := { d1 with impact := impact, entry_price := entry }
      let min_required := cfg.min_impact_pct
      if |impact.price_drop_pct| < min_required then
        { d2 with reason := .ImpactBelowThreshold }
      else if 0 < impact.volume_remaining then
        { d2 with reason := .InsufficientDepth }
      else
        { d2 with
          exit_price := calculate_exit_price entry impact signal.is_inflow cfg.take_profit
          should_trade := true
          reason := .Approved }

/-- The instrument-specific switch of `process_instrument_signal`
(signal_handler.hpp:303-359): returns `(adjusted_impact, adjusted_fees)` from
the raw absolute impact and the base fees. -/
def instrument_adjust (t : InstrumentType) (d : InstrumentData)
    (is_short : Bool) (entry raw_impact base_fees : ℚ) : ℚ × ℚ :=
  match t with
  | .SPOT => (raw_impact, base_fees)
  | .MARGIN => (raw_impact, base_fees + |d.interest_rate_long| * 4)
  | .PERPETUAL => (raw_impact, base_fees + |d.funding_rate| * 100)
  | .FUTURES =>
      if !is_short ∧ d.basis < 0 then
        (raw_impact + |d.basis / entry * 100|, base_fees)
      else if is_short ∧ 0 < d.basis then
        (raw_impact + |d.basis / entry * 100|, base_fees)
      else (raw_impact, base_fees)
  | .OPTIONS =>
      (if 1/100 < |d.delta| then raw_impact * |d.delta| else raw_impact,
       base_fees + |d.theta| / 24)
  | .INVERSE =>
      (if 1 < raw_impact then raw_impact * (3/2) else raw_impact,
       base_fees + |d.funding_rate| * 100)
  | .LEVERAGED_TOKEN => (raw_impact * d.target_leverage, base_fees)

/-- Source `SignalHandler::process_instrument_signal` (signal_handler.hpp:235-391).
Check order as in the source: unknown exchange, minimum size, *validity*,
then staleness, then depth, and last the adjusted-impact threshold against
`adjusted_fees * min_impact_multiple`. -/
def process_instrument_signal (cfg : TradingConfig) (now : ℤ)
    (signal : BlockchainSignal) (inst_type : InstrumentType)
    (inst_data : InstrumentData) : TradeDecision :=
  let d0 : TradeDecision := { is_short := signal.is_inflow }
  let ex := exchange_from_name signal.exchange
  if ex = exchangeCOUNT then { d0 with reason := .UnknownExchange }
  else
    let d1 := { d0 with exchange := ex }
    if signal.btc_amount < cfg.min_deposit_btc then
      { d1 with reason := .DepositTooSmall }
    else if !inst_data.book.is_valid then
      { d1 with reason := .BookNotAvailable }
    else if cfg.max_book_age_ms < now - inst_data.timestamp then
      { d1 with reason := .BookStale }
    else
      let base_fees_pct := venueFeesPct ex cfg
      let impact := signalImpact signal inst_data.book
      let entry := signalEntry signal inst_data.book
      let d2 := { d1 with impact := impact, entry_price := entry }
      if 0 < impact.volume_remaining then
        { d2 with reason := .InsufficientDepth }
      else
        let adj := instrument_adjust inst_type inst_data signal.is_inflow entry
          |impact.price_drop_pct| base_fees_pct
        let min_required := adj.2 * cfg.min_impact_multiple
        if adj.1 < min_required then
          { d2 with reason := .ImpactBelowThreshold }
        else
          { d2 with
            should_trade := true
            exit_price := calculate_exit_price entry impact signal.is_inflow cfg.take_profit
            reason := .Approved }

end Sovereign
namespace Sovereign

theorem takes_nil (r : ℚ) : takes r [] = [] := rfl

theorem takes_cons_pos {r : ℚ} (hr : ¬ r ≤ 0) (l : PriceLevel) (ls : List PriceLevel) :
    takes r (l :: ls) = (l.price, min r l.volume) :: takes (r - min r l.volume) ls := by
  simp [takes, hr]

theorem takes_cons_nonpos {r : ℚ} (hr : r ≤ 0) (l : PriceLevel) (ls : List PriceLevel) :
    takes r (l :: ls) = [] := by
  simp [takes, hr]

theorem walkLoop_eq (ls : List PriceLevel) : ∀ (r : ℚ) (imp : PriceImpact),
    walkLoop ls (r, imp) =
      (r - takesSum (takes r ls),
       { imp with
         total_cost := imp.total_cost + takesCost (takes r ls)
         volume_filled := imp.volume_filled + takesSum (takes r ls)
         end_price := lastD ((takes r ls).map Prod.fst) imp.end_price
         levels_eaten := imp.levels_eaten + (takes r ls).length }) := by
  induction ls with
  | nil =>
      intro r imp
      cases imp
      simp [walkLoop, takes, takesSum, takesCost, lastD]
  | cons l ls ih =>
      intro r imp
      by_cases hr : r ≤ 0
      · cases imp
        simp [walkLoop, hr, takes_cons_nonpos hr, takesSum, takesCost, lastD]
      · rw [show walkLoop (l :: ls) (r, imp) =
            walkLoop ls (r - min r l.volume,
              { imp with
                total_cost := imp.total_cost + l.price * min r l.volume
                volume_filled := imp.volume_filled + min r l.volume
                end_price := l.price
                levels_eaten := imp.levels_eaten + 1 }) by simp [walkLoop, hr]]
        rw [ih]
        rw [takes_cons_pos hr]
        cases imp
        simp [takesSum, takesCost, lastD]
        constructor
        · ring
        · constructor
          · ring
          · constructor
            · ring
            · omega

end Sovereign
namespace Sovereign

theorem sell_impact_cons (qty : ℚ) (b : PriceLevel) (bs : List PriceLevel)
    (hq : 0 < qty) :
    calculate_sell_impact qty (b :: bs) =
      { start_price := b.price
        end_price := lastD ((takes qty (b :: bs)).map Prod.fst) b.price
        vwap := if 0 < takesSum (takes qty (b :: bs)) then
                  takesCost (takes qty (b :: bs)) / takesSum (takes qty (b :: bs))
                else b.price
        price_drop_pct := if 0 < b.price then
            (b.price - lastD ((takes qty (b :: bs)).map Prod.fst) b.price) / b.price * 100
          else 0
        volume_filled := takesSum (takes qty (b :: bs))
        volume_remaining := qty - takesSum (takes qty (b :: bs))
        total_cost := takesCost (takes qty (b :: bs))
        levels_eaten := (takes qty (b :: bs)).length } := by
  have hq' : ¬ qty ≤ 0 := not_le.mpr hq
  unfold calculate_sell_impact
  rw [if_neg (by simp [hq'])]
  simp only [List.headI, walkLoop_eq]
  by_cases hb : 0 < b.price
  · rw [if_pos hb]
    simp [hb]
  · rw [if_neg hb]
    simp [hb]

theorem buy_impact_cons (qty : ℚ) (a : PriceLevel) (as' : List PriceLevel)
    (hq : 0 < qty) :
    calculate_buy_impact qty (a :: as') =
      { start_price := a.price
        end_price := lastD ((takes qty (a :: as')).map Prod.fst) a.price
        vwap := if 0 < takesSum (takes qty (a :: as')) then
                  takesCost (takes qty (a :: as')) / takesSum (takes qty (a :: as'))
                else a.price
        price_drop_pct := if 0 < a.price then
            -((lastD ((takes qty (a :: as')).map Prod.fst) a.price - a.price) / a.price * 100)
          else 0
        volume_filled := takesSum (takes qty (a :: as'))
        volume_remaining := qty - takesSum (takes qty (a :: as'))
        total_cost := takesCost (takes qty (a :: as'))
        levels_eaten := (takes qty (a :: as')).length } := by
  have hq' : ¬ qty ≤ 0 := not_le.mpr hq
  unfold calculate_buy_impact
  rw [if_neg (by simp [hq'])]
  simp only [List.headI, walkLoop_eq]
  by_cases hb : 0 < a.price
  · rw [if_pos hb]
    simp [hb]
  · rw [if_neg hb]
    simp [hb]

end Sovereign
namespace Sovereign

theorem lastD_eq_or_mem (l : List ℚ) (d : ℚ) : lastD l d = d ∨ lastD l d ∈ l := by
  induction l generalizing d with
  | nil => left; rfl
  | cons x xs ih =>
      rcases ih x with h | h
      · right; rw [lastD, h]; exact List.mem_cons_self x xs
      · right; rw [lastD]; exact List.mem_cons_of_mem x h

theorem sorted_desc_lastD_le (x : ℚ) (l : List ℚ)
    (h : (x :: l).Pairwise (fun p q => q ≤ p)) : lastD l x ≤ x := by
  rcases lastD_eq_or_mem l x with he | hm
  · rw [he]
  · exact List.rel_of_pairwise_cons h hm

theorem sorted_desc_lastD_le_mem (x : ℚ) (l : List ℚ)
    (h : (x :: l).Pairwise (fun p q => q ≤ p)) :
    ∀ y ∈ x :: l, lastD l x ≤ y := by
  induction l generalizing x with
  | nil =>
      intro y hy
      rw [List.mem_singleton] at hy
      rw [hy, lastD]
  | cons z zs ih =>
      intro y hy
      rw [lastD]
      rcases List.mem_cons.mp hy with hyx | hyzl
      · calc lastD zs z ≤ z := sorted_desc_lastD_le z zs h.of_cons
          _ ≤ x := List.rel_of_pairwise_cons h (List.mem_cons_self z zs)
          _ = y := hyx.symm
      · exact ih z h.of_cons y hyzl

theorem sorted_asc_lastD_ge (x : ℚ) (l : List ℚ)
    (h : (x :: l).Pairwise (fun p q => p ≤ q)) : x ≤ lastD l x := by
  rcases lastD_eq_or_mem l x with he | hm
  · rw [he]
  · exact List.rel_of_pairwise_cons h hm

theorem sorted_asc_lastD_ge_mem (x : ℚ) (l : List ℚ)
    (h : (x :: l).Pairwise (fun p q => p ≤ q)) :
    ∀ y ∈ x :: l, y ≤ lastD l x := by
  induction l generalizing x with
  | nil =>
      intro y hy
      rw [List.mem_singleton] at hy
      rw [hy, lastD]
  | cons z zs ih =>
      intro y hy
      rw [lastD]
      rcases List.mem_cons.mp hy with hyx | hyzl
      · calc y = x := hyx
          _ ≤ z := List.rel_of_pairwise_cons h (List.mem_cons_self z zs)
          _ ≤ lastD zs z := sorted_asc_lastD_ge z zs h.of_cons
      · exact ih z h.of_cons y hyzl

theorem takes_map_fst_front (ls : List PriceLevel) : ∀ r : ℚ,
    ((takes r ls).map Prod.fst) <+: (ls.map PriceLevel.price) := by
  induction ls with
  | nil => intro r; simp [takes]
  | cons l ls ih =>
      intro r
      by_cases hr : r ≤ 0
      · rw [takes_cons_nonpos hr]
        simp
      · rw [takes_cons_pos hr]
        simp only [List.map_cons]
        exact List.cons_prefix_cons.mpr ⟨rfl, ih (r - min r l.volume)⟩

theorem takes_snd_nonneg (ls : List PriceLevel)
    (hv : ∀ l ∈ ls, 0 ≤ l.volume) : ∀ (r : ℚ), ∀ p ∈ takes r ls, 0 ≤ p.2 := by
  induction ls with
  | nil => intro r p hp; simp [takes] at hp
  | cons l ls ih =>
      intro r p hp
      by_cases hr : r ≤ 0
      · rw [takes_cons_nonpos hr] at hp
        simp at hp
      · rw [takes_cons_pos hr] at hp
        rcases List.mem_cons.mp hp with h | h
        · rw [h]
          exact le_min (le_of_lt (not_le.mp hr)) (hv l (List.mem_cons_self l ls))
        · exact ih (fun x hx => hv x (List.mem_cons_of_mem l hx)) (r - min r l.volume) p h

theorem takes_cost_bounds (ts : List (ℚ × ℚ)) (lo hi : ℚ)
    (h : ∀ p ∈ ts, (lo ≤ p.1 ∧ p.1 ≤ hi) ∧ 0 ≤ p.2) :
    lo * takesSum ts ≤ takesCost ts ∧ takesCost ts ≤ hi * takesSum ts := by
  induction ts with
  | nil => simp [takesSum, takesCost]
  | cons p ts ih =>
      have hp := h p (List.mem_cons_self p ts)
      have hrest := ih fun q hq => h q (List.mem_cons_of_mem p hq)
      have hsum : takesSum (p :: ts) = p.2 + takesSum ts := by
        simp [takesSum]
      have hcost : takesCost (p :: ts) = p.1 * p.2 + takesCost ts := by
        simp [takesCost]
      rw [hsum, hcost]
      constructor
      · rw [mul_add]
        exact add_le_add (mul_le_mul_of_nonneg_right hp.1.1 hp.2) hrest.1
      · rw [mul_add]
        exact add_le_add (mul_le_mul_of_nonneg_right hp.1.2 hp.2) hrest.2

end Sovereign
namespace Sovereign

theorem sellWalkSpec_cons (qty : ℚ) (b : PriceLevel) (bs : List PriceLevel)
    (hq : ¬ qty ≤ 0) :
    sellWalkSpec qty (b :: bs) =
      { start_price := b.price
        end_price := lastD ((takes qty (b :: bs)).map Prod.fst) b.price
        vwap := if 0 < takesSum (takes qty (b :: bs)) then
                  takesCost (takes qty (b :: bs)) / takesSum (takes qty (b :: bs))
                else b.price
        price_drop_pct :=
          (b.price - lastD ((takes qty (b :: bs)).map Prod.fst) b.price) / b.price * 100
        volume_filled := takesSum (takes qty (b :: bs))
        volume_remaining := qty - takesSum (takes qty (b :: bs))
        total_cost := takesCost (takes qty (b :: bs))
        levels_eaten := (takes qty (b :: bs)).length } := by
  unfold sellWalkSpec
  rw [if_neg (by simp [hq])]
  rfl

theorem buyWalkSpec_cons (qty : ℚ) (a : PriceLevel) (as' : List PriceLevel)
    (hq : ¬ qty ≤ 0) :
    buyWalkSpec qty (a :: as') =
      { start_price := a.price
        end_price := lastD ((takes qty (a :: as')).map Prod.fst) a.price
        vwap := if 0 < takesSum (takes qty (a :: as')) then
                  takesCost (takes qty (a :: as')) / takesSum (takes qty (a :: as'))
                else a.price
        price_drop_pct :=
          -((lastD ((takes qty (a :: as')).map Prod.fst) a.price - a.price) / a.price * 100)
        volume_filled := takesSum (takes qty (a :: as'))
        volume_remaining := qty - takesSum (takes qty (a :: as'))
        total_cost := takesCost (takes qty (a :: as'))
        levels_eaten := (takes qty (a :: as')).length } := by
  unfold buyWalkSpec
  rw [if_neg (by simp [hq])]
  rfl

theorem sell_eq_spec (qty : ℚ) (bids : List PriceLevel)
    (hpos : bids ≠ [] → 0 < bids.headI.price) :
    calculate_sell_impact qty bids = sellWalkSpec qty bids := by
  cases bids with
  | nil => rfl
  | cons b bs =>
      by_cases hq : qty ≤ 0
      · unfold calculate_sell_impact sellWalkSpec
        rw [if_pos (Or.inr hq), if_pos (Or.inr hq)]
      · have hb : 0 < b.price := hpos (List.cons_ne_nil b bs)
        rw [sell_impact_cons qty b bs (not_le.mp hq), sellWalkSpec_cons qty b bs hq,
          if_pos hb]

theorem buy_eq_spec (qty : ℚ) (asks : List PriceLevel)
    (hpos : asks ≠ [] → 0 < asks.headI.price) :
    calculate_buy_impact qty asks = buyWalkSpec qty asks := by
  cases asks with
  | nil => rfl
  | cons a as' =>
      by_cases hq : qty ≤ 0
      · unfold calculate_buy_impact buyWalkSpec
        rw [if_pos (Or.inr hq), if_pos (Or.inr hq)]
      · have hb : 0 < a.price := hpos (List.cons_ne_nil a as')
        rw [buy_impact_cons qty a as' (not_le.mp hq), buyWalkSpec_cons qty a as' hq,
          if_pos hb]

end Sovereign
namespace Sovereign

theorem touched_pairwise_desc (qty : ℚ) (bids : List PriceLevel)
    (hs : SortedDesc bids) :
    ((takes qty bids).map Prod.fst).Pairwise (fun p q => q ≤ p) := by
  have hps : (bids.map PriceLevel.price).Pairwise (fun p q => q ≤ p) :=
    (List.pairwise_map).mpr hs
  exact hps.sublist (takes_map_fst_front bids qty).sublist

theorem touched_pairwise_asc (qty : ℚ) (asks : List PriceLevel)
    (hs : SortedAsc asks) :
    ((takes qty asks).map Prod.fst).Pairwise (fun p q => p ≤ q) := by
  have hps : (asks.map PriceLevel.price).Pairwise (fun p q => p ≤ q) :=
    (List.pairwise_map).mpr hs
  exact hps.sublist (takes_map_fst_front asks qty).sublist

theorem sell_invariants (qty : ℚ) (bids : List PriceLevel)
    (hs : SortedDesc bids)
    (hp : ∀ l ∈ bids, 0 < l.price) (hv : ∀ l ∈ bids, 0 < l.volume) :
    (calculate_sell_impact qty bids).end_price ≤
        (calculate_sell_impact qty bids).start_price ∧
    0 ≤ (calculate_sell_impact qty bids).price_drop_pct ∧
    ((calculate_sell_impact qty bids).volume_remaining = 0 →
      (calculate_sell_impact qty bids).end_price ≤ (calculate_sell_impact qty bids).vwap ∧
      (calculate_sell_impact qty bids).vwap ≤ (calculate_sell_impact qty bids).start_price) := by
  cases bids with
  | nil =>
      unfold calculate_sell_impact
      simp
  | cons b bs =>
      by_cases hq : qty ≤ 0
      · unfold calculate_sell_impact
        rw [if_pos (Or.inr hq)]
        simp
      · have hb : 0 < b.price := hp b (List.mem_cons_self b bs)
        rw [sell_impact_cons qty b bs (not_le.mp hq)]
        -- the touched prices, with their head
        have hts : takes qty (b :: bs) =
            (b.price, min qty b.volume) :: takes (qty - min qty b.volume) bs :=
          takes_cons_pos hq b bs
        set rest := (takes (qty - min qty b.volume) bs).map Prod.fst with hrest
        have htouched : (takes qty (b :: bs)).map Prod.fst = b.price :: rest := by
          rw [hts]; rfl
        have hpw : (b.price :: rest).Pairwise (fun p q => q ≤ p) := by
          rw [← htouched]; exact touched_pairwise_desc qty (b :: bs) hs
        have hendp : lastD ((takes qty (b :: bs)).map Prod.fst) b.price =
            lastD rest b.price := by rw [htouched]; rfl
        have hend_le : lastD rest b.price ≤ b.price :=
          sorted_desc_lastD_le b.price rest hpw
        refine ⟨by simpa [hendp] using hend_le, ?_, ?_⟩
        · rw [if_pos hb, hendp]
          have : 0 ≤ b.price - lastD rest b.price := sub_nonneg.mpr hend_le
          positivity
        · intro hrem
          simp only at hrem
          have hfilled : takesSum (takes qty (b :: bs)) = qty := by linarith
          have hfpos : 0 < takesSum (takes qty (b :: bs)) := by
            rw [hfilled]; exact not_le.mp hq
          have hbounds : ∀ p ∈ takes qty (b :: bs),
              (lastD rest b.price ≤ p.1 ∧ p.1 ≤ b.price) ∧ 0 ≤ p.2 := by
            intro p hpmem
            have hmem1 : p.1 ∈ b.price :: rest := by
              rw [← htouched]; exact List.mem_map_of_mem Prod.fst hpmem
            refine ⟨⟨sorted_desc_lastD_le_mem b.price rest hpw p.1 hmem1, ?_⟩, ?_⟩
            · rcases List.mem_cons.mp hmem1 with h | h
              · rw [h]
              · exact List.rel_of_pairwise_cons hpw h
            · exact takes_snd_nonneg (b :: bs)
                (fun l hl => le_of_lt (hv l hl)) qty p hpmem
          obtain ⟨hlo, hhi⟩ := takes_cost_bounds (takes qty (b :: bs))
            (lastD rest b.price) b.price hbounds
          rw [if_pos hfpos, hendp]
          constructor
          · rw [le_div_iff₀ hfpos]
            exact hlo
          · rw [div_le_iff₀ hfpos]
            show takesCost (takes qty (b :: bs)) ≤ b.price * takesSum (takes qty (b :: bs))
            exact hhi

end Sovereign
namespace Sovereign

theorem buy_invariants (qty : ℚ) (asks : List PriceLevel)
    (hs : SortedAsc asks)
    (hp : ∀ l ∈ asks, 0 < l.price) (hv : ∀ l ∈ asks, 0 < l.volume) :
    (calculate_buy_impact qty asks).start_price ≤
        (calculate_buy_impact qty asks).end_price ∧
    (calculate_buy_impact qty asks).price_drop_pct ≤ 0 ∧
    ((calculate_buy_impact qty asks).volume_remaining = 0 →
      (calculate_buy_impact qty asks).start_price ≤ (calculate_buy_impact qty asks).vwap ∧
      (calculate_buy_impact qty asks).vwap ≤ (calculate_buy_impact qty asks).end_price) := by
  cases asks with
  | nil =>
      unfold calculate_buy_impact
      simp
  | cons a as' =>
      by_cases hq : qty ≤ 0
      · unfold calculate_buy_impact
        rw [if_pos (Or.inr hq)]
        simp
      · have ha : 0 < a.price := hp a (List.mem_cons_self a as')
        rw [buy_impact_cons qty a as' (not_le.mp hq)]
        have hts : takes qty (a :: as') =
            (a.price, min qty a.volume) :: takes (qty - min qty a.volume) as' :=
          takes_cons_pos hq a as'
        set rest := (takes (qty - min qty a.volume) as').map Prod.fst with hrest
        have htouched : (takes qty (a :: as')).map Prod.fst = a.price :: rest := by
          rw [hts]; rfl
        have hpw : (a.price :: rest).Pairwise (fun p q => p ≤ q) := by
          rw [← htouched]; exact touched_pairwise_asc qty (a :: as') hs
        have hendp : lastD ((takes qty (a :: as')).map Prod.fst) a.price =
            lastD rest a.price := by rw [htouched]; rfl
        have hend_ge : a.price ≤ lastD rest a.price :=
          sorted_asc_lastD_ge a.price rest hpw
        refine ⟨by simpa [hendp] using hend_ge, ?_, ?_⟩
        · rw [if_pos ha, hendp]
          have h1 : 0 ≤ lastD rest a.price - a.price := sub_nonneg.mpr hend_ge
          have h2 : 0 ≤ (lastD rest a.price - a.price) / a.price * 100 := by positivity
          linarith
        · intro hrem
          simp only at hrem
          have hfilled : takesSum (takes qty (a :: as')) = qty := by linarith
          have hfpos : 0 < takesSum (takes qty (a :: as')) := by
            rw [hfilled]; exact not_le.mp hq
          have hbounds : ∀ p ∈ takes qty (a :: as'),
              (a.price ≤ p.1 ∧ p.1 ≤ lastD rest a.price) ∧ 0 ≤ p.2 := by
            intro p hpmem
            have hmem1 : p.1 ∈ a.price :: rest := by
              rw [← htouched]; exact List.mem_map_of_mem Prod.fst hpmem
            refine ⟨⟨?_, sorted_asc_lastD_ge_mem a.price rest hpw p.1 hmem1⟩, ?_⟩
            · rcases List.mem_cons.mp hmem1 with h | h
              · rw [h]
              · exact List.rel_of_pairwise_cons hpw h
            · exact takes_snd_nonneg (a :: as')
                (fun l hl => le_of_lt (hv l hl)) qty p hpmem
          obtain ⟨hlo, hhi⟩ := takes_cost_bounds (takes qty (a :: as'))
            a.price (lastD rest a.price) hbounds
          rw [if_pos hfpos, hendp]
          constructor
          · rw [le_div_iff₀ hfpos]
            show a.price * takesSum (takes qty (a :: as')) ≤ takesCost (takes qty (a :: as'))
            exact hlo
          · rw [div_le_iff₀ hfpos]
            show takesCost (takes qty (a :: as')) ≤ lastD rest a.price * takesSum (takes qty (a :: as'))
            exact hhi

end Sovereign
namespace Sovereign

/-- C1 (counterexample).  The claim quantifies over *every* bid list
sorted by price descending, but on a sorted list whose best price is not
positive the source guards `price_drop_pct` behind `start_price > 0`
(impact_calculator.hpp:80-83) while the spec's formula is unconditional: at
`qty = 1`, `bids = [(-1, 1/2), (-2, 5)]` the code leaves `price_drop_pct = 0`
and the reference walk yields `-100`, so the two results differ. -/
theorem C1_counterexample :
    SortedDesc [⟨-1, 1/2⟩, ⟨-2, 5⟩] ∧
    (calculate_sell_impact 1 [⟨-1, 1/2⟩, ⟨-2, 5⟩]).price_drop_pct = 0 ∧
    (sellWalkSpec 1 [⟨-1, 1/2⟩, ⟨-2, 5⟩]).price_drop_pct = -100 ∧
    calculate_sell_impact 1 [⟨-1, 1/2⟩, ⟨-2, 5⟩] ≠ sellWalkSpec 1 [⟨-1, 1/2⟩, ⟨-2, 5⟩] := by
  refine ⟨by norm_num [SortedDesc, List.pairwise_cons], ?_, ?_, ?_⟩
  · norm_num [calculate_sell_impact, walkLoop, List.headI, List.cons_ne_nil, reduceIte]
  · norm_num [sellWalkSpec, takes, takesSum, takesCost, lastD, List.headI,
      List.cons_ne_nil, reduceIte]
  · norm_num [calculate_sell_impact, sellWalkSpec, walkLoop, takes, takesSum,
      takesCost, lastD, List.headI, List.cons_ne_nil, reduceIte, PriceImpact.mk.injEq]

/-- C1 (amended).  For every quantity, every bid list sorted by price
descending and every ask list sorted ascending, each with a strictly positive
best price when non-empty (the §3 price invariant, which the original claim
omits), `calculate_sell_impact` equals the spec's sell-walk reference
definition and `calculate_buy_impact` equals the symmetric buy-walk reference
with `price_drop_pct` negated. -/
theorem C1_walk_refines_spec (qs qb : ℚ) (bids asks : List PriceLevel)
    (_hbs : SortedDesc bids) (_has : SortedAsc asks)
    (hbp : bids ≠ [] → 0 < bids.headI.price)
    (hap : asks ≠ [] → 0 < asks.headI.price) :
    calculate_sell_impact qs bids = sellWalkSpec qs bids ∧
    calculate_buy_impact qb asks = buyWalkSpec qb asks :=
  ⟨sell_eq_spec qs bids hbp, buy_eq_spec qb asks hap⟩

/-- C1 (witness): the amended equivalence instantiated at the spec's §8
ladders. -/
theorem C1_walk_refines_spec_witness :
    calculate_sell_impact 50 [⟨87000, 10⟩, ⟨86950, 15⟩, ⟨86900, 20⟩, ⟨86850, 25⟩] =
      sellWalkSpec 50 [⟨87000, 10⟩, ⟨86950, 15⟩, ⟨86900, 20⟩, ⟨86850, 25⟩] ∧
    calculate_buy_impact 5 [⟨87010, 1⟩, ⟨87060, 1⟩, ⟨87200, 5⟩] =
      buyWalkSpec 5 [⟨87010, 1⟩, ⟨87060, 1⟩, ⟨87200, 5⟩] :=
  C1_walk_refines_spec 50 5
    [⟨87000, 10⟩, ⟨86950, 15⟩, ⟨86900, 20⟩, ⟨86850, 25⟩]
    [⟨87010, 1⟩, ⟨87060, 1⟩, ⟨87200, 5⟩]
    (by norm_num [SortedDesc, List.pairwise_cons])
    (by norm_num [SortedAsc, List.pairwise_cons])
    (fun _ => by norm_num [List.headI])
    (fun _ => by norm_num [List.headI])

end Sovereign
namespace Sovereign

/-- C4 (counterexample).  On the §8 ladder with `qty = 50` the walk's cost
is `10·87000 + 15·86950 + 20·86900 + 5·86850 = 4,346,500`, not the claimed
`4,346,250`, and the VWAP is `4,346,500 / 50 = 86930`, not `86925` (the spec's
own arithmetic for its scenario is off by `250`). -/
theorem C4_counterexample :
    (calculate_sell_impact 50 [⟨87000, 10⟩, ⟨86950, 15⟩, ⟨86900, 20⟩, ⟨86850, 25⟩]).total_cost
        = 4346500 ∧
    (calculate_sell_impact 50 [⟨87000, 10⟩, ⟨86950, 15⟩, ⟨86900, 20⟩, ⟨86850, 25⟩]).total_cost
        ≠ 4346250 ∧
    (calculate_sell_impact 50 [⟨87000, 10⟩, ⟨86950, 15⟩, ⟨86900, 20⟩, ⟨86850, 25⟩]).vwap
        = 86930 ∧
    (calculate_sell_impact 50 [⟨87000, 10⟩, ⟨86950, 15⟩, ⟨86900, 20⟩, ⟨86850, 25⟩]).vwap
        ≠ 86925 := by
  norm_num [calculate_sell_impact, walkLoop, List.headI, List.cons_ne_nil, reduceIte]

end Sovereign
namespace Sovereign

/-- C4 (amended).  Running the sell walk with `qty = 50` over
`[(87000,10),(86950,15),(86900,20),(86850,25)]` yields `volume_filled = 50`,
`end_price = 86850`, `price_drop_pct = 5/29 ≈ 0.17241%`,
`total_cost = 4,346,500` and `vwap = 86930`; and with the 0.10% fee and the
default `min_impact_multiple = 2` the decision on a fresh, valid binance book
is a reject with the impact-below-threshold reason, because `5/29 < 0.20`. -/
theorem C4_ladder_scenario :
    (calculate_sell_impact 50 [⟨87000, 10⟩, ⟨86950, 15⟩, ⟨86900, 20⟩, ⟨86850, 25⟩]).volume_filled
        = 50 ∧
    (calculate_sell_impact 50 [⟨87000, 10⟩, ⟨86950, 15⟩, ⟨86900, 20⟩, ⟨86850, 25⟩]).end_price
        = 86850 ∧
    (calculate_sell_impact 50 [⟨87000, 10⟩, ⟨86950, 15⟩, ⟨86900, 20⟩, ⟨86850, 25⟩]).price_drop_pct
        = 5/29 ∧
    (17241/100000 : ℚ) < 5/29 ∧ (5/29 : ℚ) < 17242/100000 ∧
    (calculate_sell_impact 50 [⟨87000, 10⟩, ⟨86950, 15⟩, ⟨86900, 20⟩, ⟨86850, 25⟩]).total_cost
        = 4346500 ∧
    (calculate_sell_impact 50 [⟨87000, 10⟩, ⟨86950, 15⟩, ⟨86900, 20⟩, ⟨86850, 25⟩]).vwap
        = 86930 ∧
    (5/29 : ℚ) < (1/10) * 2 ∧
    (process_signal
        { books := fun i => if i = 5 then
            { bids := [⟨87000, 10⟩, ⟨86950, 15⟩, ⟨86900, 20⟩, ⟨86850, 25⟩]
              asks := [⟨87050, 1⟩] } else {}
          seqs := fun _ => 0 }
        {} 0 { exchange := "binance", is_inflow := true, btc_amount := 50 }).should_trade
        = false ∧
    (process_signal
        { books := fun i => if i = 5 then
            { bids := [⟨87000, 10⟩, ⟨86950, 15⟩, ⟨86900, 20⟩, ⟨86850, 25⟩]
              asks := [⟨87050, 1⟩] } else {}
          seqs := fun _ => 0 }
        {} 0 { exchange := "binance", is_inflow := true, btc_amount := 50 }).reason
        = .ImpactBelowThreshold := by
  have hx : exchange_from_name "binance" = 5 := by decide
  have habs : |(5 : ℚ)/29| = 5/29 := abs_of_pos (by norm_num)
  refine ⟨?_, ?_, ?_, by norm_num, by norm_num, ?_, ?_, by norm_num, ?_, ?_⟩
  all_goals
    norm_num [calculate_sell_impact, process_signal, hx, habs, walkLoop, List.headI,
      List.cons_ne_nil, reduceIte,
      OrderBookCache.is_stale, OrderBookCache.is_valid, OrderBookCache.get,
      OrderBook.is_valid, OrderBook.best_bid, signalImpact, signalEntry,
      TradingConfig.min_impact_pct, venueFeesPct, fee_pct, FEE_PCTS, exchangeCOUNT]

end Sovereign
namespace Sovereign

/-- C5 (confirmed).  For every bid list sorted by price descending with
strictly positive prices and volumes, the sell walk satisfies
`end_price ≤ start_price`, `price_drop_pct ≥ 0`, and — when
`volume_remaining = 0` — `vwap ∈ [end_price, start_price]`; symmetrically for
the buy walk over an ascending ask list: `end_price ≥ start_price`,
`price_drop_pct ≤ 0`, and `vwap ∈ [start_price, end_price]` on a full fill. -/
theorem C5_impact_invariants (qs qb : ℚ) (bids asks : List PriceLevel)
    (hbs : SortedDesc bids) (has : SortedAsc asks)
    (hbp : ∀ l ∈ bids, 0 < l.price ∧ 0 < l.volume)
    (hap : ∀ l ∈ asks, 0 < l.price ∧ 0 < l.volume) :
    ((calculate_sell_impact qs bids).end_price ≤ (calculate_sell_impact qs bids).start_price ∧
     0 ≤ (calculate_sell_impact qs bids).price_drop_pct ∧
     ((calculate_sell_impact qs bids).volume_remaining = 0 →
       (calculate_sell_impact qs bids).end_price ≤ (calculate_sell_impact qs bids).vwap ∧
       (calculate_sell_impact qs bids).vwap ≤ (calculate_sell_impact qs bids).start_price)) ∧
    ((calculate_buy_impact qb asks).start_price ≤ (calculate_buy_impact qb asks).end_price ∧
     (calculate_buy_impact qb asks).price_drop_pct ≤ 0 ∧
     ((calculate_buy_impact qb asks).volume_remaining = 0 →
       (calculate_buy_impact qb asks).start_price ≤ (calculate_buy_impact qb asks).vwap ∧
       (calculate_buy_impact qb asks).vwap ≤ (calculate_buy_impact qb asks).end_price)) :=
  ⟨sell_invariants qs bids hbs (fun l hl => (hbp l hl).1) (fun l hl => (hbp l hl).2),
   buy_invariants qb asks has (fun l hl => (hap l hl).1) (fun l hl => (hap l hl).2)⟩

/-- C5 (witness): the invariants at the spec's §8 ladders. -/
theorem C5_impact_invariants_witness :
    ((calculate_sell_impact 50 [⟨87000, 10⟩, ⟨86950, 15⟩, ⟨86900, 20⟩, ⟨86850, 25⟩]).end_price ≤
        (calculate_sell_impact 50 [⟨87000, 10⟩, ⟨86950, 15⟩, ⟨86900, 20⟩, ⟨86850, 25⟩]).start_price ∧
      0 ≤ (calculate_sell_impact 50 [⟨87000, 10⟩, ⟨86950, 15⟩, ⟨86900, 20⟩, ⟨86850, 25⟩]).price_drop_pct ∧
      ((calculate_sell_impact 50 [⟨87000, 10⟩, ⟨86950, 15⟩, ⟨86900, 20⟩, ⟨86850, 25⟩]).volume_remaining = 0 →
        (calculate_sell_impact 50 [⟨87000, 10⟩, ⟨86950, 15⟩, ⟨86900, 20⟩, ⟨86850, 25⟩]).end_price ≤
          (calculate_sell_impact 50 [⟨87000, 10⟩, ⟨86950, 15⟩, ⟨86900, 20⟩, ⟨86850, 25⟩]).vwap ∧
        (calculate_sell_impact 50 [⟨87000, 10⟩, ⟨86950, 15⟩, ⟨86900, 20⟩, ⟨86850, 25⟩]).vwap ≤
          (calculate_sell_impact 50 [⟨87000, 10⟩, ⟨86950, 15⟩, ⟨86900, 20⟩, ⟨86850, 25⟩]).start_price)) ∧
    ((calculate_buy_impact 5 [⟨87010, 1⟩, ⟨87060, 1⟩, ⟨87200, 5⟩]).start_price ≤
        (calculate_buy_impact 5 [⟨87010, 1⟩, ⟨87060, 1⟩, ⟨87200, 5⟩]).end_price ∧
      (calculate_buy_impact 5 [⟨87010, 1⟩, ⟨87060, 1⟩, ⟨87200, 5⟩]).price_drop_pct ≤ 0 ∧
      ((calculate_buy_impact 5 [⟨87010, 1⟩, ⟨87060, 1⟩, ⟨87200, 5⟩]).volume_remaining = 0 →
        (calculate_buy_impact 5 [⟨87010, 1⟩, ⟨87060, 1⟩, ⟨87200, 5⟩]).start_price ≤
          (calculate_buy_impact 5 [⟨87010, 1⟩, ⟨87060, 1⟩, ⟨87200, 5⟩]).vwap ∧
        (calculate_buy_impact 5 [⟨87010, 1⟩, ⟨87060, 1⟩, ⟨87200, 5⟩]).vwap ≤
          (calculate_buy_impact 5 [⟨87010, 1⟩, ⟨87060, 1⟩, ⟨87200, 5⟩]).end_price)) :=
  C5_impact_invariants 50 5
    [⟨87000, 10⟩, ⟨86950, 15⟩, ⟨86900, 20⟩, ⟨86850, 25⟩]
    [⟨87010, 1⟩, ⟨87060, 1⟩, ⟨87200, 5⟩]
    (by norm_num [SortedDesc, List.pairwise_cons])
    (by norm_num [SortedAsc, List.pairwise_cons])
    (by norm_num) (by norm_num)

/-- C6 (counterexample).  At exact equality `|impact| = fees · safety`
(here `|0.2| = 0.1 · 2`) the free helper `ImpactCalculator::is_profitable`
returns `true` but the member `PriceImpact::is_profitable` returns `false`:
the member compares with strict `>` (order_book_types.hpp:853), so the claim
that both return `true` at equality is false. -/
theorem C6_counterexample :
    ImpactCalculator.is_profitable (2/10) (1/10) 2 = true ∧
    PriceImpact.is_profitable { price_drop_pct := 2/10 } (1/10) 2 = false ∧
    |(2 : ℚ)/10| = (1/10) * 2 := by
  refine ⟨?_, ?_, by norm_num [abs_of_pos]⟩
  · norm_num [ImpactCalculator.is_profitable, abs_of_pos]
  · norm_num [PriceImpact.is_profitable, abs_of_pos]

/-- C6 (amended).  For all arguments the free helper
`ImpactCalculator::is_profitable` returns `true` iff
`|impact_pct| ≥ fees_pct · safety` (true at equality), while the member
`PriceImpact::is_profitable` returns `true` iff
`|price_drop_pct| > fees_pct · safety` (strict, false at equality); they agree
everywhere except exactly at the boundary. -/
theorem C6_profitability_boundary (impact_pct fees_pct safety : ℚ) (imp : PriceImpact) :
    (ImpactCalculator.is_profitable impact_pct fees_pct safety = true ↔
      fees_pct * safety ≤ |impact_pct|) ∧
    (PriceImpact.is_profitable imp fees_pct safety = true ↔
      fees_pct * safety < |imp.price_drop_pct|) ∧
    (|impact_pct| = fees_pct * safety →
      ImpactCalculator.is_profitable impact_pct fees_pct safety = true) ∧
    (|imp.price_drop_pct| = fees_pct * safety →
      PriceImpact.is_profitable imp fees_pct safety = false) := by
  refine ⟨by simp [ImpactCalculator.is_profitable], by simp [PriceImpact.is_profitable],
    ?_, ?_⟩
  · intro h
    simp [ImpactCalculator.is_profitable, h]
  · intro h
    simp [PriceImpact.is_profitable, h]

/-- C6 (witness): the boundary case instantiated at
`impact = 0.2, fees = 0.1, safety = 2`, hypotheses discharged. -/
theorem C6_profitability_boundary_witness :
    ImpactCalculator.is_profitable (2/10) (1/10) 2 = true ∧
    PriceImpact.is_profitable { price_drop_pct := 2/10 } (1/10) 2 = false :=
  ⟨(C6_profitability_boundary (2/10) (1/10) 2 { price_drop_pct := 2/10 }).2.2.1
      (by norm_num [abs_of_pos]),
   (C6_profitability_boundary (2/10) (1/10) 2 { price_drop_pct := 2/10 }).2.2.2
      (by norm_num [abs_of_pos])⟩

end Sovereign
namespace Sovereign

theorem exFromNameGo_not_mem (name : String) :
    ∀ (l : List String) (i : ℕ), name ∉ l → exFromNameGo name l i = i + l.length := by
  intro l
  induction l with
  | nil => intro i _; simp [exFromNameGo]
  | cons s rest ih =>
      intro i hnm
      have hs : ¬ s = name := fun h => hnm (h ▸ List.mem_cons_self s rest)
      rw [exFromNameGo, if_neg hs, ih (i + 1) (fun h => hnm (List.mem_cons_of_mem s h))]
      simp only [List.length_cons]
      omega

/-- C10 (confirmed).  For every exchange index `e < 110`,
`exchange_from_name (exchange_name e) = e` — the 110-entry name table is
injective and aligned with the enum order — and every string that is not
exactly one of the table entries maps to the `COUNT` sentinel (110). -/
theorem C10_name_roundtrip :
    (∀ e : Fin 110, exchange_from_name (exchange_name e.val) = e.val) ∧
    (∀ s : String, s ∉ EXCHANGE_NAMES → exchange_from_name s = exchangeCOUNT) := by
  constructor
  · decide
  · intro s hs
    rw [exchange_from_name, exFromNameGo_not_mem s EXCHANGE_NAMES 0 hs]
    rfl

/-- C10 (witness): the roundtrip at index 18 (`"coinbase"`), and the
sentinel on a string outside the table. -/
theorem C10_name_roundtrip_witness :
    exchange_from_name (exchange_name (18 : Fin 110).val) = 18 ∧
    ("bogus" ∉ EXCHANGE_NAMES ∧ exchange_from_name "bogus" = exchangeCOUNT) :=
  ⟨C10_name_roundtrip.1 18,
   by decide, C10_name_roundtrip.2 "bogus" (by decide)⟩

end Sovereign
namespace Sovereign

/-- C2 (counterexample).  (i) binance book `bids = [(100000,1)]`,
`asks = [(100001,1)]`, inflow of 6 BTC: the walk leaves
`volume_remaining = 5 > 0` *and* the impact `0 < 0.2%` is below threshold,
yet `process_signal` returns the impact-below-threshold reason — condition 6
is decided *before* condition 5 (signal_handler.hpp:103 vs 115).  (ii) an
instrument entry whose book is empty *and* 6000 ms old is rejected by
`process_instrument_signal` as "Order book not available", not as stale —
condition 4 is decided *before* condition 3 (signal_handler.hpp:261 vs 268). -/
theorem C2_counterexample :
    (0 < (signalImpact { exchange := "binance", is_inflow := true, btc_amount := 6 }
        { bids := [⟨100000, 1⟩], asks := [⟨100001, 1⟩] }).volume_remaining ∧
      |(signalImpact { exchange := "binance", is_inflow := true, btc_amount := 6 }
        { bids := [⟨100000, 1⟩], asks := [⟨100001, 1⟩] }).price_drop_pct| <
        TradingConfig.min_impact_pct {} ∧
      (process_signal
        { books := fun i => if i = 5 then
            { bids := [⟨100000, 1⟩], asks := [⟨100001, 1⟩] } else {}
          seqs := fun _ => 0 }
        {} 0 { exchange := "binance", is_inflow := true, btc_amount := 6 }).reason
        = .ImpactBelowThreshold) ∧
    ((({} : InstrumentData).book.is_valid = false) ∧
      (5000 : ℤ) < 0 - ({ timestamp := -6000 : InstrumentData }).timestamp ∧
      (process_instrument_signal {} 0
        { exchange := "binance", is_inflow := true, btc_amount := 6 }
        .SPOT { timestamp := -6000 }).reason = .BookNotAvailable) := by
  have hx : exchange_from_name "binance" = 5 := by decide
  refine ⟨⟨?_, ?_, ?_⟩, ?_, by norm_num, ?_⟩
  all_goals
    norm_num [process_signal, process_instrument_signal, hx, signalImpact, signalEntry,
      calculate_sell_impact, walkLoop, List.headI, List.cons_ne_nil, reduceIte,
      OrderBookCache.is_stale, OrderBookCache.is_valid, OrderBookCache.get,
      OrderBook.is_valid, OrderBook.best_bid, TradingConfig.min_impact_pct,
      venueFeesPct, fee_pct, FEE_PCTS, exchangeCOUNT, abs_of_nonneg]

/-- C2 (amended).  The two handlers evaluate their reject conditions in
*different* orders, neither fully the spec's: `process_signal` checks unknown
venue, quantity, staleness, validity, then the impact threshold (condition 6)
*before* insufficient depth (condition 5), so a signal failing both gets the
impact reason; `process_instrument_signal` checks validity *before* staleness
(condition 4 before 3), then depth before the impact threshold, so a book
both stale and invalid gets the not-available reason and a signal failing
both depth and threshold gets the depth reason. -/
theorem C2_reject_order :
    (∀ (cache : OrderBookCache) (cfg : TradingConfig) (now : ℤ) (signal : BlockchainSignal),
      exchange_from_name signal.exchange ≠ exchangeCOUNT →
      ¬ signal.btc_amount < cfg.min_deposit_btc →
      cache.is_stale (exchange_from_name signal.exchange) now cfg.max_book_age_ms = false →
      cache.is_valid (exchange_from_name signal.exchange) = true →
      |(signalImpact signal (cache.get (exchange_from_name signal.exchange))).price_drop_pct|
          < cfg.min_impact_pct →
      (process_signal cache cfg now signal).reason = .ImpactBelowThreshold) ∧
    (∀ (cache : OrderBookCache) (cfg : TradingConfig) (now : ℤ) (signal : BlockchainSignal),
      exchange_from_name signal.exchange ≠ exchangeCOUNT →
      ¬ signal.btc_amount < cfg.min_deposit_btc →
      cache.is_stale (exchange_from_name signal.exchange) now cfg.max_book_age_ms = true →
      (process_signal cache cfg now signal).reason = .BookStale) ∧
    (∀ (cfg : TradingConfig) (now : ℤ) (signal : BlockchainSignal)
        (t : InstrumentType) (d : InstrumentData),
      exchange_from_name signal.exchange ≠ exchangeCOUNT →
      ¬ signal.btc_amount < cfg.min_deposit_btc →
      d.book.is_valid = false →
      (process_instrument_signal cfg now signal t d).reason = .BookNotAvailable) ∧
    (∀ (cfg : TradingConfig) (now : ℤ) (signal : BlockchainSignal)
        (t : InstrumentType) (d : InstrumentData),
      exchange_from_name signal.exchange ≠ exchangeCOUNT →
      ¬ signal.btc_amount < cfg.min_deposit_btc →
      d.book.is_valid = true →
      ¬ cfg.max_book_age_ms < now - d.timestamp →
      0 < (signalImpact signal d.book).volume_remaining →
      (process_instrument_signal cfg now signal t d).reason = .InsufficientDepth) := by
  refine ⟨?_, ?_, ?_, ?_⟩
  · intro cache cfg now signal hex hq hst hv himp
    simp [process_signal, hex, hq, hst, hv, himp]
  · intro cache cfg now signal hex hq hst
    simp [process_signal, hex, hq, hst]
  · intro cfg now signal t d hex hq hv
    simp [process_instrument_signal, hex, hq, hv]
  · intro cfg now signal t d hex hq hv hst hrem
    simp [process_instrument_signal, hex, hq, hv, hst, hrem]

end Sovereign
namespace Sovereign

/-- C2 (witness): the four orderings instantiated at concrete caches,
books and signals, hypotheses discharged. -/
theorem C2_reject_order_witness :
    (process_signal
      { books := fun i => if i = 5 then
          { bids := [⟨100000, 1⟩], asks := [⟨100001, 1⟩] } else {}
        seqs := fun _ => 0 }
      {} 0 { exchange := "binance", is_inflow := true, btc_amount := 6 }).reason
      = .ImpactBelowThreshold ∧
    (process_signal
      { books := fun i => if i = 5 then
          { bids := [⟨100000, 1⟩], asks := [⟨100001, 1⟩], timestamp := -6000 } else {}
        seqs := fun _ => 0 }
      {} 0 { exchange := "binance", is_inflow := true, btc_amount := 6 }).reason
      = .BookStale ∧
    (process_instrument_signal {} 0
      { exchange := "binance", is_inflow := true, btc_amount := 6 }
      .SPOT { timestamp := -6000 }).reason = .BookNotAvailable ∧
    (process_instrument_signal {} 0
      { exchange := "binance", is_inflow := true, btc_amount := 6 }
      .SPOT { book := { bids := [⟨100000, 1⟩], asks := [⟨100001, 1⟩] } }).reason
      = .InsufficientDepth := by
  have hx : exchange_from_name "binance" = 5 := by decide
  have hx' : exchange_from_name "binance" ≠ exchangeCOUNT := by rw [hx]; decide
  refine ⟨C2_reject_order.1 _ _ _ _ hx' (by norm_num) ?_ ?_ ?_,
    C2_reject_order.2.1 _ _ _ _ hx' (by norm_num) ?_,
    C2_reject_order.2.2.1 _ _ _ _ _ hx' (by norm_num) ?_,
    C2_reject_order.2.2.2 _ _ _ _ _ hx' (by norm_num) ?_ ?_ ?_⟩
  all_goals
    norm_num [OrderBookCache.is_stale, OrderBookCache.is_valid, OrderBookCache.get,
      OrderBook.is_valid, hx, signalImpact, calculate_sell_impact, walkLoop,
      List.headI, List.cons_ne_nil, reduceIte, TradingConfig.min_impact_pct,
      exchangeCOUNT]

/-- C3 (counterexample).  Venue `"coinbase"` has taker fee `0.005`
(0.5%), so the venue-derived threshold is `0.5 · 2 = 1.0%`; on a fresh valid
book where selling 10 BTC moves the price only `0.3%`, the claim demands a
reject, yet `process_signal` *accepts* the trade: it computes the venue fee
(signal_handler.hpp:86-87) but tests the impact against
`config_.min_impact_pct()` — the process-wide default `0.1 · 2 = 0.2%`
(signal_handler.hpp:102). -/
theorem C3_counterexample :
    |(process_signal
        { books := fun i => if i = 18 then
            { bids := [⟨1000, 5⟩, ⟨997, 10⟩], asks := [⟨1001, 1⟩] } else {}
          seqs := fun _ => 0 }
        {} 0 { exchange := "coinbase", is_inflow := true,
               btc_amount := 10 }).impact.price_drop_pct| <
      venueFeesPct (exchange_from_name "coinbase") {} *
        ({} : TradingConfig).min_impact_multiple ∧
    (process_signal
        { books := fun i => if i = 18 then
            { bids := [⟨1000, 5⟩, ⟨997, 10⟩], asks := [⟨1001, 1⟩] } else {}
          seqs := fun _ => 0 }
        {} 0 { exchange := "coinbase", is_inflow := true,
               btc_amount := 10 }).should_trade = true := by
  have hx : exchange_from_name "coinbase" = 18 := by decide
  constructor
  all_goals
    norm_num [process_signal, hx, signalImpact, signalEntry, calculate_sell_impact,
      walkLoop, List.headI, List.cons_ne_nil, reduceIte,
      OrderBookCache.is_stale, OrderBookCache.is_valid, OrderBookCache.get,
      OrderBook.is_valid, OrderBook.best_bid, TradingConfig.min_impact_pct,
      venueFeesPct, fee_pct, FEE_PCTS, exchangeCOUNT, abs_of_nonneg]

/-- C3 (amended).  Only `process_instrument_signal` tests profitability
against the venue-derived threshold: for every signal that reaches its
profitability check (known venue, size, valid and fresh book, full fill), it
rejects exactly when the adjusted impact is below `adjusted_fees ·
min_impact_multiple`, where the fee base is the venue's taker fee percentage
with the process-wide default substituted when the per-venue fee is below
0.01%.  `process_signal` instead tests `|impact|` against
`fees_pct · min_impact_multiple` built from the process-wide default,
ignoring the venue fee it computes. -/
theorem C3_threshold_source (cfg : TradingConfig) (now : ℤ)
    (signal : BlockchainSignal) (t : InstrumentType) (d : InstrumentData)
    (hex : exchange_from_name signal.exchange ≠ exchangeCOUNT)
    (hq : ¬ signal.btc_amount < cfg.min_deposit_btc)
    (hv : d.book.is_valid = true)
    (hst : ¬ cfg.max_book_age_ms < now - d.timestamp)
    (hrem : ¬ 0 < (signalImpact signal d.book).volume_remaining) :
    ((process_instrument_signal cfg now signal t d).should_trade = false ↔
      (instrument_adjust t d signal.is_inflow (signalEntry signal d.book)
          |(signalImpact signal d.book).price_drop_pct|
          (venueFeesPct (exchange_from_name signal.exchange) cfg)).1 <
        (instrument_adjust t d signal.is_inflow (signalEntry signal d.book)
          |(signalImpact signal d.book).price_drop_pct|
          (venueFeesPct (exchange_from_name signal.exchange) cfg)).2 *
          cfg.min_impact_multiple) ∧
    (venueFeesPct (exchange_from_name signal.exchange) cfg =
      if fee_pct (exchange_from_name signal.exchange) * 100 < 1/100 then cfg.fees_pct
      else fee_pct (exchange_from_name signal.exchange) * 100) := by
  constructor
  · by_cases himp : (instrument_adjust t d signal.is_inflow (signalEntry signal d.book)
        |(signalImpact signal d.book).price_drop_pct|
        (venueFeesPct (exchange_from_name signal.exchange) cfg)).1 <
          (instrument_adjust t d signal.is_inflow (signalEntry signal d.book)
            |(signalImpact signal d.book).price_drop_pct|
            (venueFeesPct (exchange_from_name signal.exchange) cfg)).2 *
            cfg.min_impact_multiple
    · simp [process_instrument_signal, hex, hq, hv, hst, hrem, himp]
    · simp [process_instrument_signal, hex, hq, hv, hst, hrem, himp]
  · rfl

end Sovereign
namespace Sovereign

/-- C7 (counterexample).  Here `InstrumentCache` breaks the claim three ways:
its `update` assigns a *global* counter, so writing keys `(0, SPOT)`,
`(0, MARGIN)`, `(0, SPOT)` in turn leaves key `(0, SPOT)` with sequence 3,
not its previous sequence plus one (2); and `clear` erases the entry
(order_book_cache.hpp:647-651), after which the sequence accessor reads 0 —
a decrease from 1. -/
theorem C7_counterexample :
    (InstrumentCache.init.update 0 .SPOT {} 0).get_sequence 0 .SPOT = 1 ∧
    (((InstrumentCache.init.update 0 .SPOT {} 0).update 0 .MARGIN {} 0).update
        0 .SPOT {} 0).get_sequence 0 .SPOT = 3 ∧
    (3 : ℕ) ≠ 1 + 1 ∧
    ((InstrumentCache.init.update 0 .SPOT {} 0).clear 0 .SPOT).get_sequence 0 .SPOT
        = 0 ∧
    ¬ (InstrumentCache.init.update 0 .SPOT {} 0).get_sequence 0 .SPOT ≤
      ((InstrumentCache.init.update 0 .SPOT {} 0).clear 0 .SPOT).get_sequence 0 .SPOT := by
  refine ⟨rfl, rfl, by decide, rfl, by decide⟩

/-- C7 (amended).  Cache `OrderBookCache` behaves as claimed: every valid-key
write (`update`, `update_bids`, `update_asks`, `clear`, and `clear_all` on
each valid key) assigns and publishes the key's previous sequence plus one,
two identical consecutive updates bump twice, and the sequence accessor never
decreases across any write operation including clears.  `InstrumentCache`
instead assigns every write (`update`, `update_book`, `update_funding`) the
value of a single *global* counter plus one; under the invariant that every
stored sequence is at most the global counter — true initially and preserved
by every operation — the written key's sequence accessor still strictly
increases, but its `clear` erases the entry, dropping that key's sequence
accessor back to 0. -/
theorem C7_sequence_discipline :
    (∀ (st : OrderBookCache) (ex : ℕ) (book : OrderBook) (now : ℤ),
      ex < exchangeCOUNT →
      (st.update ex book now).get_sequence ex = st.get_sequence ex + 1 ∧
      ((st.update ex book now).get ex).sequence = st.get_sequence ex + 1 ∧
      ((st.update ex book now).update ex book now).get_sequence ex
        = st.get_sequence ex + 2) ∧
    (∀ (st : OrderBookCache) (ex : ℕ) (bids asks : List PriceLevel) (now : ℤ),
      ex < exchangeCOUNT →
      (st.update_bids ex bids now).get_sequence ex = st.get_sequence ex + 1 ∧
      (st.update_asks ex asks now).get_sequence ex = st.get_sequence ex + 1 ∧
      (st.clear ex).get_sequence ex = st.get_sequence ex + 1 ∧
      st.clear_all.get_sequence ex = st.get_sequence ex + 1) ∧
    (∀ (st : OrderBookCache) (op : OrderBookCache.Op) (ex : ℕ),
      st.get_sequence ex ≤ (st.apply op).get_sequence ex) ∧
    (∀ (st : InstrumentCache) (ex : ℕ) (t : InstrumentType) (x : InstrumentData)
        (now : ℤ),
      (st.update ex t x now).global_seq = st.global_seq + 1 ∧
      (st.update ex t x now).get_sequence ex t = st.global_seq + 1 ∧
      ((st.update ex t x now).update ex t x now).get_sequence ex t
        = st.global_seq + 2) ∧
    (∀ (st : InstrumentCache) (ex : ℕ) (t : InstrumentType) (book : OrderBook)
        (fr : ℚ) (nft now : ℤ),
      (st.update_book ex t book now).global_seq = st.global_seq + 1 ∧
      (st.update_book ex t book now).get_sequence ex t = st.global_seq + 1 ∧
      (st.update_funding ex t fr nft now).global_seq = st.global_seq + 1 ∧
      (st.update_funding ex t fr nft now).get_sequence ex t = st.global_seq + 1 ∧
      (st.clear ex t).get_sequence ex t = 0) ∧
    InstrumentCache.SeqInv InstrumentCache.init ∧
    (∀ (st : InstrumentCache) (ex : ℕ) (t : InstrumentType) (x : InstrumentData)
        (book : OrderBook) (fr : ℚ) (nft now : ℤ),
      InstrumentCache.SeqInv st →
      (st.get_sequence ex t < (st.update ex t x now).get_sequence ex t ∧
       st.get_sequence ex t < (st.update_book ex t book now).get_sequence ex t ∧
       st.get_sequence ex t < (st.update_funding ex t fr nft now).get_sequence ex t) ∧
      InstrumentCache.SeqInv (st.update ex t x now) ∧
      InstrumentCache.SeqInv (st.update_book ex t book now) ∧
      InstrumentCache.SeqInv (st.update_funding ex t fr nft now) ∧
      InstrumentCache.SeqInv (st.clear ex t)) := by
  refine ⟨?_, ?_, ?_, ?_, ?_, ?_, ?_⟩
  · intro st ex book now hex
    have hex' : ¬ exchangeCOUNT ≤ ex := not_le.mpr hex
    refine ⟨?_, ?_, ?_⟩ <;>
      simp [OrderBookCache.update, OrderBookCache.get_sequence, OrderBookCache.get, hex']
  · intro st ex bids asks now hex
    have hex' : ¬ exchangeCOUNT ≤ ex := not_le.mpr hex
    refine ⟨?_, ?_, ?_, ?_⟩ <;>
      simp [OrderBookCache.update_bids, OrderBookCache.update_asks,
        OrderBookCache.clear, OrderBookCache.clear_all,
        OrderBookCache.get_sequence, hex', not_le.mp hex']
  · intro st op ex
    by_cases hex : exchangeCOUNT ≤ ex
    · cases op <;>
        simp [OrderBookCache.apply, OrderBookCache.update, OrderBookCache.update_bids,
          OrderBookCache.update_asks, OrderBookCache.clear, OrderBookCache.clear_all,
          OrderBookCache.get_sequence, hex]
    · cases op with
      | update ex' book now =>
          by_cases h' : exchangeCOUNT ≤ ex'
          · simp [OrderBookCache.apply, OrderBookCache.update, h']
          · simp [OrderBookCache.apply, OrderBookCache.update, OrderBookCache.get_sequence,
              hex, h']
            split_ifs with h
            · subst h
              omega
            · omega
      | update_bids ex' bids now =>
          by_cases h' : exchangeCOUNT ≤ ex'
          · simp [OrderBookCache.apply, OrderBookCache.update_bids, h']
          · simp [OrderBookCache.apply, OrderBookCache.update_bids,
              OrderBookCache.get_sequence, hex, h']
            split_ifs with h
            · subst h
              omega
            · omega
      | update_asks ex' asks now =>
          by_cases h' : exchangeCOUNT ≤ ex'
          · simp [OrderBookCache.apply, OrderBookCache.update_asks, h']
          · simp [OrderBookCache.apply, OrderBookCache.update_asks,
              OrderBookCache.get_sequence, hex, h']
            split_ifs with h
            · subst h
              omega
            · omega
      | clear ex' =>
          by_cases h' : exchangeCOUNT ≤ ex'
          · simp [OrderBookCache.apply, OrderBookCache.clear, h']
          · simp [OrderBookCache.apply, OrderBookCache.clear,
              OrderBookCache.get_sequence, hex, h']
            split_ifs with h
            · subst h
              omega
            · omega
      | clear_all =>
          simp [OrderBookCache.apply, OrderBookCache.clear_all,
            OrderBookCache.get_sequence, hex]
          split_ifs <;> omega
  · intro st ex t x now
    refine ⟨rfl, ?_, ?_⟩ <;>
      simp [InstrumentCache.update, InstrumentCache.get_sequence]
  · intro st ex t book fr nft now
    refine ⟨rfl, ?_, rfl, ?_, ?_⟩ <;>
      simp [InstrumentCache.update_book, InstrumentCache.update_funding,
        InstrumentCache.clear, InstrumentCache.get_sequence]
  · intro k d hk
    simp [InstrumentCache.init] at hk
  · intro st ex t x book fr nft now hinv
    have hle : st.get_sequence ex t ≤ st.global_seq := by
      unfold InstrumentCache.get_sequence
      cases hc : st.cache (InstrumentCache.make_key ex t) with
      | none => exact Nat.zero_le _
      | some d => exact hinv _ _ hc
    have hupd : (st.update ex t x now).get_sequence ex t = st.global_seq + 1 := by
      simp [InstrumentCache.update, InstrumentCache.get_sequence]
    have hbook : (st.update_book ex t book now).get_sequence ex t
        = st.global_seq + 1 := by
      simp [InstrumentCache.update_book, InstrumentCache.get_sequence]
    have hfund : (st.update_funding ex t fr nft now).get_sequence ex t
        = st.global_seq + 1 := by
      simp [InstrumentCache.update_funding, InstrumentCache.get_sequence]
    refine ⟨⟨by omega, by omega, by omega⟩, ?_, ?_, ?_, ?_⟩
    · intro k d hk
      by_cases h : k = InstrumentCache.make_key ex t
      · subst h
        simp [InstrumentCache.update] at hk
        subst hk
        simp [InstrumentCache.update]
      · simp [InstrumentCache.update, h] at hk ⊢
        exact le_trans (hinv k d hk) (Nat.le_succ _)
    · intro k d hk
      by_cases h : k = InstrumentCache.make_key ex t
      · subst h
        simp [InstrumentCache.update_book] at hk
        subst hk
        simp [InstrumentCache.update_book]
      · simp [InstrumentCache.update_book, h] at hk ⊢
        exact le_trans (hinv k d hk) (Nat.le_succ _)
    · intro k d hk
      by_cases h : k = InstrumentCache.make_key ex t
      · subst h
        simp [InstrumentCache.update_funding] at hk
        subst hk
        simp [InstrumentCache.update_funding]
      · simp [InstrumentCache.update_funding, h] at hk ⊢
        exact le_trans (hinv k d hk) (Nat.le_succ _)
    · intro k d hk
      by_cases h : k = InstrumentCache.make_key ex t
      · subst h
        simp [InstrumentCache.clear] at hk
      · simp [InstrumentCache.clear, h] at hk ⊢
        exact hinv k d hk

/-- C7 (witness): the amended discipline at concrete caches — exchange 5 for
the per-key counters, key `(0, SPOT)` for the global counter — with the
sequence invariant discharged at the empty cache. -/
theorem C7_sequence_discipline_witness :
    ((OrderBookCache.init.update 5 {} 0).get_sequence 5 =
        OrderBookCache.init.get_sequence 5 + 1 ∧
      ((OrderBookCache.init.update 5 {} 0).get 5).sequence =
        OrderBookCache.init.get_sequence 5 + 1 ∧
      ((OrderBookCache.init.update 5 {} 0).update 5 {} 0).get_sequence 5 =
        OrderBookCache.init.get_sequence 5 + 2) ∧
    ((OrderBookCache.init.update_bids 5 [⟨87000, 10⟩] 0).get_sequence 5 =
        OrderBookCache.init.get_sequence 5 + 1 ∧
      (OrderBookCache.init.update_asks 5 [⟨87050, 1⟩] 0).get_sequence 5 =
        OrderBookCache.init.get_sequence 5 + 1 ∧
      (OrderBookCache.init.clear 5).get_sequence 5 =
        OrderBookCache.init.get_sequence 5 + 1 ∧
      OrderBookCache.init.clear_all.get_sequence 5 =
        OrderBookCache.init.get_sequence 5 + 1) ∧
    OrderBookCache.init.get_sequence 5 ≤
      (OrderBookCache.init.apply (.clear 5)).get_sequence 5 ∧
    ((InstrumentCache.init.update 0 .SPOT {} 0).global_seq =
        InstrumentCache.init.global_seq + 1 ∧
      (InstrumentCache.init.update 0 .SPOT {} 0).get_sequence 0 .SPOT =
        InstrumentCache.init.global_seq + 1 ∧
      ((InstrumentCache.init.update 0 .SPOT {} 0).update 0 .SPOT {} 0).get_sequence
          0 .SPOT = InstrumentCache.init.global_seq + 2) ∧
    ((InstrumentCache.init.update_book 0 .SPOT {} 0).get_sequence 0 .SPOT =
        InstrumentCache.init.global_seq + 1 ∧
      (InstrumentCache.init.update_funding 0 .SPOT (1/10000) 0 0).get_sequence
          0 .SPOT = InstrumentCache.init.global_seq + 1 ∧
      (InstrumentCache.init.clear 0 .SPOT).get_sequence 0 .SPOT = 0) ∧
    (InstrumentCache.init.get_sequence 0 .SPOT <
        (InstrumentCache.init.update 0 .SPOT {} 0).get_sequence 0 .SPOT ∧
      InstrumentCache.SeqInv (InstrumentCache.init.update 0 .SPOT {} 0)) :=
  ⟨C7_sequence_discipline.1 OrderBookCache.init 5 {} 0 (by decide),
   C7_sequence_discipline.2.1 OrderBookCache.init 5 [⟨87000, 10⟩] [⟨87050, 1⟩] 0
     (by decide),
   C7_sequence_discipline.2.2.1 OrderBookCache.init (.clear 5) 5,
   C7_sequence_discipline.2.2.2.1 InstrumentCache.init 0 .SPOT {} 0,
   ⟨(C7_sequence_discipline.2.2.2.2.1 InstrumentCache.init 0 .SPOT {} (1/10000)
       0 0).2.1,
    (C7_sequence_discipline.2.2.2.2.1 InstrumentCache.init 0 .SPOT {} (1/10000)
       0 0).2.2.2.1,
    (C7_sequence_discipline.2.2.2.2.1 InstrumentCache.init 0 .SPOT {} (1/10000)
       0 0).2.2.2.2⟩,
   (C7_sequence_discipline.2.2.2.2.2.2 InstrumentCache.init 0 .SPOT {} {}
       (1/10000) 0 0 C7_sequence_discipline.2.2.2.2.2.1).1.1,
   (C7_sequence_discipline.2.2.2.2.2.2 InstrumentCache.init 0 .SPOT {} {}
       (1/10000) 0 0 C7_sequence_discipline.2.2.2.2.2.1).2.1⟩


end Sovereign
namespace Sovereign

/-- C8 (counterexample).  Source `InstrumentCache::update` also overwrites the
stored value's `type` field with the key's instrument type
(order_book_cache.hpp:535): writing a value whose `type` is `MARGIN` under
key `(0, SPOT)` reads back with `type = SPOT`, so the value is *not* equal to
the written one in every field except `timestamp` and `sequence`. -/
theorem C8_counterexample :
    ((InstrumentCache.init.update 0 .SPOT { type := .MARGIN } 0).get 0 .SPOT).type
        = .SPOT ∧
    ({ type := .MARGIN : InstrumentData }).type = .MARGIN ∧
    InstrumentType.SPOT ≠ .MARGIN := by
  refine ⟨rfl, rfl, by decide⟩

/-- C8 (amended).  For every valid key, `update` followed by `get` with no
intervening write returns the written value with exactly `timestamp` and
`sequence` replaced for `OrderBookCache`, and with exactly `timestamp`,
`sequence` *and* `type` replaced (the latter by the key's instrument type) for
`InstrumentCache`. -/
theorem C8_update_get_roundtrip :
    (∀ (st : OrderBookCache) (ex : ℕ) (x : OrderBook) (now : ℤ),
      ex < exchangeCOUNT →
      (st.update ex x now).get ex =
        { x with timestamp := now, sequence := st.seqs ex + 1 }) ∧
    (∀ (st : InstrumentCache) (ex : ℕ) (t : InstrumentType) (x : InstrumentData)
        (now : ℤ),
      (st.update ex t x now).get ex t =
        { x with
          type := t
          timestamp := now
          sequence := st.global_seq + 1 }) := by
  constructor
  · intro st ex x now hex
    have hex' : ¬ exchangeCOUNT ≤ ex := not_le.mpr hex
    simp [OrderBookCache.update, OrderBookCache.get, hex']
  · intro st ex t x now
    simp [InstrumentCache.update, InstrumentCache.get]

/-- C8 (witness): the roundtrip at exchange 5 / key `(5, PERPETUAL)` on
the fresh caches. -/
theorem C8_update_get_roundtrip_witness :
    (OrderBookCache.init.update 5 { bids := [⟨87000, 10⟩] } 7).get 5 =
      { ({ bids := [⟨87000, 10⟩] } : OrderBook) with
        timestamp := 7
        sequence := OrderBookCache.init.seqs 5 + 1 } ∧
    (InstrumentCache.init.update 5 .PERPETUAL { funding_rate := 1/10000 } 7).get
        5 .PERPETUAL =
      { ({ funding_rate := 1/10000 } : InstrumentData) with
        type := .PERPETUAL
        timestamp := 7
        sequence := InstrumentCache.init.global_seq + 1 } :=
  ⟨C8_update_get_roundtrip.1 OrderBookCache.init 5 { bids := [⟨87000, 10⟩] } 7
      (by decide),
   C8_update_get_roundtrip.2 InstrumentCache.init 5 .PERPETUAL
      { funding_rate := 1/10000 } 7⟩

/-- C9 (counterexample).  A default-constructed `InstrumentData` is *not*
zero in every field — `is_call = true`, `max_leverage = 1`,
`contract_size = 1`, `target_leverage = 3` (order_book_types.hpp:745-767) —
and `InstrumentCache::update` performs no venue validation: a write with the
invalid `COUNT` venue (110) is stored under the computed flat key rather than
discarded, changing the cache state. -/
theorem C9_counterexample :
    ({} : InstrumentData).target_leverage = 3 ∧ (3 : ℚ) ≠ 0 ∧
    ({} : InstrumentData).contract_size = 1 ∧ (1 : ℚ) ≠ 0 ∧
    ({} : InstrumentData).is_call = true ∧
    InstrumentCache.init.cache (InstrumentCache.make_key exchangeCOUNT .SPOT)
        = none ∧
    ((InstrumentCache.init.update exchangeCOUNT .SPOT {} 0).cache
        (InstrumentCache.make_key exchangeCOUNT .SPOT)).isSome = true := by
  refine ⟨rfl, by norm_num, rfl, by norm_num, rfl, rfl, rfl⟩

/-- C9 (amended).  Reads of never-written or out-of-range keys return a
*default-constructed* value (`InstrumentData` with `is_call = true`,
`max_leverage = 1`, `contract_size = 1`, `target_leverage = 3` and every
other field zero; an empty `OrderBook` for `OrderBookCache`) and a sequence
of 0.  `OrderBookCache` silently discards writes with an invalid venue enum,
leaving the state unchanged; `InstrumentCache` does not validate the venue
and stores such writes under the computed flat key. -/
theorem C9_failure_behavior :
    (∀ (st : InstrumentCache) (ex : ℕ) (t : InstrumentType),
      st.cache (InstrumentCache.make_key ex t) = none →
      st.get ex t = ({} : InstrumentData) ∧ st.get_sequence ex t = 0) ∧
    (∀ (st : OrderBookCache) (ex : ℕ), exchangeCOUNT ≤ ex →
      st.get ex = ({} : OrderBook) ∧ st.get_sequence ex = 0 ∧
      (∀ (book : OrderBook) (now : ℤ), st.update ex book now = st) ∧
      (∀ (bids : List PriceLevel) (now : ℤ), st.update_bids ex bids now = st) ∧
      st.clear ex = st) ∧
    (∀ (st : InstrumentCache) (t : InstrumentType) (x : InstrumentData) (now : ℤ),
      (st.update exchangeCOUNT t x now).cache
          (InstrumentCache.make_key exchangeCOUNT t) =
        some { x with
               type := t
               timestamp := now
               sequence := st.global_seq + 1 }) := by
  refine ⟨?_, ?_, ?_⟩
  · intro st ex t hnone
    constructor
    · simp [InstrumentCache.get, hnone]
    · simp [InstrumentCache.get_sequence, hnone]
  · intro st ex hex
    refine ⟨?_, ?_, ?_, ?_, ?_⟩ <;>
      simp [OrderBookCache.get, OrderBookCache.get_sequence, OrderBookCache.update,
        OrderBookCache.update_bids, OrderBookCache.clear, hex]
  · intro st t x now
    simp [InstrumentCache.update]

/-- C9 (witness): the failure behaviors at concrete keys and states. -/
theorem C9_failure_behavior_witness :
    (InstrumentCache.init.get 3 .OPTIONS = ({} : InstrumentData) ∧
      InstrumentCache.init.get_sequence 3 .OPTIONS = 0) ∧
    (OrderBookCache.init.get 110 = ({} : OrderBook) ∧
      OrderBookCache.init.get_sequence 110 = 0 ∧
      (∀ (book : OrderBook) (now : ℤ),
        OrderBookCache.init.update 110 book now = OrderBookCache.init) ∧
      (∀ (bids : List PriceLevel) (now : ℤ),
        OrderBookCache.init.update_bids 110 bids now = OrderBookCache.init) ∧
      OrderBookCache.init.clear 110 = OrderBookCache.init) ∧
    ((InstrumentCache.init.update exchangeCOUNT .SPOT {} 0).cache
        (InstrumentCache.make_key exchangeCOUNT .SPOT) =
      some { ({} : InstrumentData) with
             type := .SPOT
             timestamp := 0
             sequence := InstrumentCache.init.global_seq + 1 }) :=
  by
  refine ⟨C9_failure_behavior.1 InstrumentCache.init 3 .OPTIONS rfl,
    C9_failure_behavior.2.1 OrderBookCache.init 110 (by decide), ?_⟩
  exact C9_failure_behavior.2.2 InstrumentCache.init .SPOT {} 0

end Sovereign
namespace Sovereign

/-- C3 (witness): the venue-derived threshold characterization at a
concrete binance spot signal that reaches the profitability check. -/
theorem C3_threshold_source_witness :
    ((process_instrument_signal {} 0
        { exchange := "binance", is_inflow := true, btc_amount := 50 } .SPOT
        { book := { bids := [⟨87000, 10⟩, ⟨86950, 15⟩, ⟨86900, 20⟩, ⟨86850, 25⟩]
                    asks := [⟨87050, 1⟩] } }).should_trade = false ↔
      (instrument_adjust .SPOT
          { book := { bids := [⟨87000, 10⟩, ⟨86950, 15⟩, ⟨86900, 20⟩, ⟨86850, 25⟩]
                      asks := [⟨87050, 1⟩] } }
          ({ exchange := "binance", is_inflow := true,
             btc_amount := 50 : BlockchainSignal }).is_inflow
          (signalEntry { exchange := "binance", is_inflow := true, btc_amount := 50 }
            ({ book := { bids := [⟨87000, 10⟩, ⟨86950, 15⟩, ⟨86900, 20⟩, ⟨86850, 25⟩]
                         asks := [⟨87050, 1⟩] } : InstrumentData }).book)
          |(signalImpact { exchange := "binance", is_inflow := true, btc_amount := 50 }
            ({ book := { bids := [⟨87000, 10⟩, ⟨86950, 15⟩, ⟨86900, 20⟩, ⟨86850, 25⟩]
                         asks := [⟨87050, 1⟩] } : InstrumentData }).book).price_drop_pct|
          (venueFeesPct (exchange_from_name "binance") {})).1 <
        (instrument_adjust .SPOT
          { book := { bids := [⟨87000, 10⟩, ⟨86950, 15⟩, ⟨86900, 20⟩, ⟨86850, 25⟩]
                      asks := [⟨87050, 1⟩] } }
          ({ exchange := "binance", is_inflow := true,
             btc_amount := 50 : BlockchainSignal }).is_inflow
          (signalEntry { exchange := "binance", is_inflow := true, btc_amount := 50 }
            ({ book := { bids := [⟨87000, 10⟩, ⟨86950, 15⟩, ⟨86900, 20⟩, ⟨86850, 25⟩]
                         asks := [⟨87050, 1⟩] } : InstrumentData }).book)
          |(signalImpact { exchange := "binance", is_inflow := true, btc_amount := 50 }
            ({ book := { bids := [⟨87000, 10⟩, ⟨86950, 15⟩, ⟨86900, 20⟩, ⟨86850, 25⟩]
                         asks := [⟨87050, 1⟩] } : InstrumentData }).book).price_drop_pct|
          (venueFeesPct (exchange_from_name "binance") {})).2 *
          ({} : TradingConfig).min_impact_multiple) ∧
    (venueFeesPct (exchange_from_name "binance") {} =
      if fee_pct (exchange_from_name "binance") * 100 < 1/100 then
        ({} : TradingConfig).fees_pct
      else fee_pct (exchange_from_name "binance") * 100) := by
  have hx : exchange_from_name "binance" = 5 := by decide
  refine C3_threshold_source {} 0
    { exchange := "binance", is_inflow := true, btc_amount := 50 } .SPOT
    { book := { bids := [⟨87000, 10⟩, ⟨86950, 15⟩, ⟨86900, 20⟩, ⟨86850, 25⟩]
                asks := [⟨87050, 1⟩] } }
    (by rw [hx]; decide) (by norm_num) ?_ (by norm_num) ?_
  · norm_num [OrderBook.is_valid]
  · norm_num [signalImpact, calculate_sell_impact, walkLoop, List.headI,
      List.cons_ne_nil, reduceIte]

end Sovereign
